import Mathlib

/-!
Verification development for the ClawGuard gated reverse proxy.

The TypeScript sources under `src/` are shallowly embedded below:
pure validation functions (`security.ts`) become Lean functions, the two
request handlers of `proxy.ts` become pure functions from a request value
to an `Outcome`, the SQLite approvals table (`audit.ts`) becomes a list of
rows with explicit query functions, and the Telegram pending-callback
registry (`telegram.ts`) becomes an explicit state machine.

Strings are modelled through their character lists (`String.data`); the
handful of JavaScript string operations used by the source
(`toLowerCase`, `startsWith`, `substring`, `split`) are re-implemented on
character lists so that every definition evaluates by kernel reduction.
Header values are modelled as single strings (Node folds repeated headers
before the code under study sees them), and wall-clock times are natural
numbers (ISO-8601 strings compare exactly like their time values).
-/

/-! ## Character-list string helpers (JS string operations) -/

/-- `s.toLowerCase()` on the character list of a string. -/
def lowerChars (l : List Char) : List Char := l.map Char.toLower

/-- `s.toLowerCase()`. -/
def jsToLower (s : String) : String := String.mk (lowerChars s.data)

/-- `s.toUpperCase()`. -/
def jsToUpper (s : String) : String := String.mk (s.data.map Char.toUpper)

/-- `s.startsWith(p)`. -/
def jsStartsWith (s p : String) : Bool := p.data.isPrefixOf s.data

/-- `s.endsWith(p)`. -/
def jsEndsWith (s p : String) : Bool := p.data.isSuffixOf s.data

/-- `s.substring(n)` (drop the first `n` units; source strings are ASCII). -/
def jsDrop (s : String) (n : Nat) : String := String.mk (s.data.drop n)

/-- `s.length` (UTF-16 units; identical to the character count on ASCII). -/
def jsLength (s : String) : Nat := s.data.length

/-- JavaScript `a || b` on strings: the empty string is falsy. -/
def jsOrStr (a b : String) : String := if a = "" then b else a

/-- JavaScript `a || b` where each side is `string | undefined`. -/
def jsOrOpt (a b : Option String) : Option String :=
  match a with
  | some s => if s = "" then b else some s
  | none => b

/-- Split a character list at every occurrence of the character `c`
(the behaviour of JS `s.split(c)` for a one-character separator). -/
def splitOnChar (c : Char) : List Char → List (List Char)
  | [] => [[]]
  | d :: rest =>
    match splitOnChar c rest with
    | [] => [[]]
    | seg :: segs => if d = c then [] :: seg :: segs else (d :: seg) :: segs

/-! ## Association lists: JavaScript `Record<string, string>` objects

`lookupKV` reads a property, `setKV` assigns one (overwriting the value in
place when the key exists, appending otherwise). Keys are case-sensitive,
exactly like JS object properties. -/

/-- Property read on a JS object modelled as an association list. -/
def lookupKV {α : Type} : List (String × α) → String → Option α
  | [], _ => none
  | (k, v) :: rest, key => if k = key then some v else lookupKV rest key

/-- Property assignment on a JS object modelled as an association list. -/
def setKV {α : Type} : List (String × α) → String → α → List (String × α)
  | [], key, v => [(key, v)]
  | (k, w) :: rest, key, v =>
    if k = key then (k, v) :: rest else (k, w) :: setKV rest key v

/-! ## The WHATWG `URL` model (`new URL(input)` and `new URL(input, base)`)

Only the behaviour exercised by the gateway is modelled: absolute
`http(s)` URLs with hostname, optional port, path and query, and
resolution of absolute, path-absolute, scheme-relative and query-only
inputs against such a base, including dot-segment removal. Hosts are kept
verbatim (the gateway only feeds it already-lowercase hosts) and IPv6
bracket hosts are out of the model. A `none` result corresponds to the
constructor throwing. -/

structure URL where
  scheme : String
  hostname : String
  port : Option Nat
  path : String
  query : Option String
deriving Repr, DecidableEq

/-- JS `url.host`: hostname plus the explicit port, if any. -/
def URL.host (u : URL) : String :=
  u.hostname ++ (match u.port with | some p => ":" ++ Nat.repr p | none => "")

/-- JS `url.toString()` / `url.href` for the modelled fragment-free URLs. -/
def URL.toStr (u : URL) : String :=
  u.scheme ++ "://" ++ u.host ++ u.path ++
    (match u.query with | some q => "?" ++ q | none => "")

/-- Split `path?query` at the first `?`. -/
def splitPathQuery (l : List Char) : List Char × Option (List Char) :=
  match l with
  | [] => ([], none)
  | c :: rest =>
    if c = '?' then ([], some rest)
    else
      match splitPathQuery rest with
      | (p, q) => (c :: p, q)

/-- Characters legal after the first one of a URL scheme. -/
def schemeTailChar (c : Char) : Bool :=
  c.isAlphanum || c = '+' || c = '-' || c = '.'

/-- Whether a string is a syntactically valid URL scheme. -/
def schemeOk (l : List Char) : Bool :=
  match l with
  | [] => false
  | c :: rest => c.isAlpha && rest.all schemeTailChar

/-- Scan the authority part: everything up to the first `/` or `?`. -/
def spanAuthority : List Char → List Char × List Char
  | [] => ([], [])
  | c :: rest =>
    if c = '/' ∨ c = '?' then ([], c :: rest)
    else
      match spanAuthority rest with
      | (a, r) => (c :: a, r)

/-- Find `://` and return scheme and remainder. -/
def splitScheme : List Char → Option (List Char × List Char)
  | [] => none
  | c :: rest =>
    if c = ':' then
      match rest with
      | '/' :: '/' :: tail => some ([], tail)
      | _ => none
    else
      match splitScheme rest with
      | some (sch, tail) => some (c :: sch, tail)
      | none => none

/-- Parse the decimal port of an authority, `none` for `a.b.c`-style hosts
without a port, `some none` never occurring (a malformed port fails). -/
def splitHostPort (auth : List Char) : Option (List Char × Option Nat) :=
  match splitOnChar ':' auth with
  | [h] => some (h, none)
  | [h, p] =>
    if p = [] then some (h, none)
    else if p.all Char.isDigit then
      some (h, some (String.mk p |>.toNat!))
    else none
  | _ => none

/-- WHATWG dot-segment removal on a `/`-led path given as segments. -/
def dotSegLoop : List String → List String → List String
  | acc, [] => acc
  | acc, seg :: rest =>
    if seg = "." then
      dotSegLoop acc rest
    else if seg = ".." then
      dotSegLoop acc.dropLast rest
    else
      dotSegLoop (acc ++ [seg]) rest

/-- WHATWG dot-segment removal on a path string beginning with `/`. -/
def removeDotSegments (p : String) : String :=
  match splitOnChar '/' p.data with
  | [] => p
  | _ :: segs =>
    let strSegs := segs.map String.mk
    let cleaned := dotSegLoop [] strSegs
    let finalSlash : Bool :=
      match strSegs.getLast? with
      | some s => s = "." || s = ".."
      | none => false
    "/" ++ String.intercalate "/" cleaned ++
      (if finalSlash && cleaned ≠ [] then "/" else "")

/-- `new URL(s)`: parse an absolute URL, `none` when the constructor
would throw (no scheme, empty host, malformed port). -/
def parseURL (s : String) : Option URL :=
  match splitScheme s.data with
  | none => none
  | some (sch, rest) =>
    if schemeOk sch then
      match spanAuthority rest with
      | (auth, pq) =>
        match splitHostPort auth with
        | none => none
        | some (h, p) =>
          if h = [] then none
          else
            let scheme := String.mk (lowerChars sch)
            let port :=
              if (scheme = "https" ∧ p = some 443) ∨ (scheme = "http" ∧ p = some 80)
              then none else p
            match splitPathQuery pq with
            | (path, q) =>
              some { scheme := scheme
                     hostname := String.mk h
                     port := port
                     path := removeDotSegments (jsOrStr (String.mk path) "/")
                     query := q.map String.mk }
    else none

/-- Resolve a relative path against the base path (drop the last segment
of the base, append the input), WHATWG "merge paths". -/
def mergePaths (basePath rel : String) : String :=
  match (splitOnChar '/' basePath.data).dropLast with
  | [] => "/" ++ rel
  | kept => String.intercalate "/" (kept.map String.mk) ++ "/" ++ rel

/-- Resolution of a path-absolute input against a base: keep the base's
scheme, host and port, take path and query from the input. -/
def pathAbsResolve (l : List Char) (b : URL) : URL :=
  match splitPathQuery l with
  | (p, q) =>
    { b with path := removeDotSegments (String.mk p), query := q.map String.mk }

/-- Resolution of a relative-path input against a base: merge the paths. -/
def relResolve (l : List Char) (b : URL) : URL :=
  match splitPathQuery l with
  | (p, q) =>
    { b with path := removeDotSegments (mergePaths b.path (String.mk p))
             query := q.map String.mk }

/-- `new URL(input, base)` on the input's character list. Branches, in
order: empty input (the base), `//`-led input (scheme-relative), `/`-led
input (path-absolute), `?`-led input (query-only), input with a scheme
(absolute), anything else (relative path). -/
def newURLChars (input : List Char) (base : String) : Option URL :=
  match input with
  | [] => parseURL base
  | c1 :: rest1 =>
    if c1 = '/' then
      match rest1 with
      | [] => (parseURL base).map (pathAbsResolve input)
      | c2 :: rest2 =>
        if c2 = '/' then
          match parseURL base with
          | some b => parseURL (b.scheme ++ "://" ++ String.mk rest2)
          | none => none
        else (parseURL base).map (pathAbsResolve input)
    else if c1 = '?' then
      (parseURL base).map (fun b => { b with query := some (String.mk rest1) })
    else
      match parseURL (String.mk input) with
      | some u => some u
      | none => (parseURL base).map (relResolve input)

/-- `new URL(input, base)`. -/
def newURL (input base : String) : Option URL :=
  newURLChars input.data base

/-- `url.searchParams.set(name, value)` on the query pair list: replace
the first same-name pair, drop the other same-name pairs, else append. -/
def setQueryPairs : List (String × String) → String → String → List (String × String)
  | [], n, v => [(n, v)]
  | (k, w) :: rest, n, v =>
    if k = n then (n, v) :: rest.filter (fun p => p.1 ≠ n)
    else (k, w) :: setQueryPairs rest n v

/-- Parse a query string into name/value pairs (`a=1&b=2`). -/
def parseQueryPairs (q : String) : List (String × String) :=
  (splitOnChar '&' q.data).filterMap (fun seg =>
    if seg = [] then none
    else
      match splitOnChar '=' seg with
      | [n] => some (String.mk n, "")
      | n :: rest => some (String.mk n, String.intercalate "=" (rest.map String.mk))
      | [] => none)

/-- Serialize query pairs back to a query string. -/
def renderQueryPairs (ps : List (String × String)) : String :=
  String.intercalate "&" (ps.map (fun p => p.1 ++ "=" ++ p.2))

/-- `upstreamUrl.searchParams.set(paramName, token)` (no percent-encoding
is modelled; the gateway only injects plain tokens). -/
def setQueryParam (u : URL) (name value : String) : URL :=
  let pairs := parseQueryPairs (u.query.getD "")
  { u with query := some (renderQueryPairs (setQueryPairs pairs name value)) }

/-! ## `security.ts` -/

/-- Regex test `/^172\.(1[6-9]|2\d|3[01])\./` from `PRIVATE_IP_RANGES`. -/
def test172 : List Char → Bool
  | '1' :: '7' :: '2' :: '.' :: g1 :: g2 :: '.' :: _ =>
    (g1 = '1' && ('6' ≤ g2 && g2 ≤ '9')) ||
    (g1 = '2' && g2.isDigit) ||
    (g1 = '3' && (g2 = '0' || g2 = '1'))
  | _ => false

/-- `isPrivateIP` from `security.ts`: `PRIVATE_IP_RANGES.some(r => r.test(ip))`,
one disjunct per regex, in source order. The two `/i` regexes are tested
against the lowercased literal. -/
def isPrivateIP (ip : String) : Bool :=
  let l := ip.data
  "127.".data.isPrefixOf l ||
  "10.".data.isPrefixOf l ||
  test172 l ||
  "192.168.".data.isPrefixOf l ||
  "169.254.".data.isPrefixOf l ||
  "0.".data.isPrefixOf l ||
  l = "::1".data ||
  "fc00:".data.isPrefixOf (lowerChars l) ||
  "fe80:".data.isPrefixOf (lowerChars l)

/-- `isAllowedUpstream` from `security.ts`. -/
def isAllowedUpstream (hostname : String) (allowedUpstreams : List String) : Bool :=
  if allowedUpstreams.length = 0 then true
  else allowedUpstreams.any (fun allowed =>
    hostname = allowed || jsEndsWith hostname ("." ++ allowed))

/-- `security` section of the YAML config (`types.ts`). -/
structure SecurityConfig where
  allowedUpstreams : List String
  blockPrivateIPs : Bool
  followRedirects : Bool
  maxPayloadLogSize : Nat
deriving Repr, DecidableEq

/-- The `{ valid, reason? }` result shape of the guard functions. -/
structure VResult where
  valid : Bool
  reason : Option String
deriving Repr, DecidableEq

/-- `validateUpstreamUrl` from `security.ts`. -/
def validateUpstreamUrl (urlString : String) (security : SecurityConfig) : VResult :=
  match parseURL urlString with
  | none => ⟨false, some ("Invalid URL: " ++ urlString)⟩
  | some parsed =>
    if ¬ isAllowedUpstream parsed.hostname security.allowedUpstreams then
      ⟨false, some ("Upstream \"" ++ parsed.hostname ++ "\" is not in the allowed upstreams list")⟩
    else if security.blockPrivateIPs ∧ isPrivateIP parsed.hostname then
      ⟨false, some ("Upstream \"" ++ parsed.hostname ++ "\" resolves to a private IP (blocked by security policy)")⟩
    else if ¬ (parsed.scheme = "http" ∨ parsed.scheme = "https") then
      ⟨false, some ("Unsupported protocol: " ++ parsed.scheme ++ ":")⟩
    else ⟨true, none⟩

/-- `validateRuntimeUrl` from `security.ts`: host pin plus re-validation. -/
def validateRuntimeUrl (constructedUrl originalUpstream : String)
    (security : SecurityConfig) : VResult :=
  match parseURL constructedUrl, parseURL originalUpstream with
  | some constructed, some original =>
    if constructed.hostname ≠ original.hostname then
      ⟨false, some ("Path traversal detected: constructed URL points to \"" ++
        constructed.hostname ++ "\" instead of \"" ++ original.hostname ++ "\"")⟩
    else validateUpstreamUrl constructedUrl security
  | _, _ => ⟨false, some "Failed to parse URL"⟩

/-! ## Config data model (`types.ts`) -/

/-- `PolicyRule` from `types.ts`. -/
structure PolicyRule where
  matchMethod : Option String
  matchPath : Option String
  action : Bool
deriving Repr, DecidableEq

/-- `auth.type` of a `ServiceConfig`. -/
inductive AuthType | bearer | header | query
deriving Repr, DecidableEq

/-- The `auth` block of a `ServiceConfig`. -/
structure AuthConfig where
  type : AuthType
  token : String
  headerName : Option String
  paramName : Option String
deriving Repr, DecidableEq

/-- `ServiceConfig` from `types.ts`; `policyDefault` is the `policy.default`
action and the missing `hostnames` array is the empty list. Actions are
booleans: `true` is `auto_approve`, `false` is `require_approval`. -/
structure ServiceConfig where
  upstream : String
  auth : AuthConfig
  policyRules : List PolicyRule
  policyDefault : Bool
  hostnames : List String
deriving Repr, DecidableEq

/-- The slice of `Config` the proxy pipeline reads. -/
structure Config where
  agentKey : String
  services : List (String × ServiceConfig)
  security : SecurityConfig
deriving Repr, DecidableEq

/-! ## Approval persistence (`audit.ts`) and hydration (`approval.ts`) -/

/-- One row of the `approvals` table. `id` is the autoincrement key,
timestamps are modelled as naturals. -/
structure ApprovalRow where
  id : Nat
  timestamp : Nat
  service : String
  approvedBy : String
  ttlSeconds : Nat
  expiresAt : Nat
  revoked : Bool
deriving Repr, DecidableEq

/-- The in-memory `Approval` runtime type. -/
structure Approval where
  service : String
  approvedAt : Nat
  expiresAt : Nat
  approvedBy : String
deriving Repr, DecidableEq

/-- The row-to-`Approval` projection done by `getActiveApprovals`. -/
def rowToApproval (r : ApprovalRow) : Approval :=
  ⟨r.service, r.timestamp, r.expiresAt, r.approvedBy⟩

/-- `ORDER BY id DESC`. -/
def idGe (a b : ApprovalRow) : Prop := b.id ≤ a.id

instance : DecidableRel idGe := fun a b => Nat.decLe b.id a.id

instance : IsTotal ApprovalRow idGe :=
  ⟨fun a b => by unfold idGe; exact Nat.le_total b.id a.id⟩

instance : IsTrans ApprovalRow idGe :=
  ⟨fun _ _ _ h h2 => by unfold idGe at *; exact Nat.le_trans h2 h⟩

/-- The dedup loop of `getActiveApprovals`: walk the rows, keep the first
row per service (`seen` is the `Set` of already-seen services). -/
def dedupeByService : List ApprovalRow → List String → List ApprovalRow
  | [], _ => []
  | r :: rest, seen =>
    if r.service ∈ seen then dedupeByService rest seen
    else r :: dedupeByService rest (r.service :: seen)

/-- The `WHERE expires_at > now AND revoked = 0` condition. -/
def rowLive (now : Nat) (r : ApprovalRow) : Bool :=
  decide (now < r.expiresAt) && !r.revoked

/-- `AuditLogger.getActiveApprovals` from `audit.ts`: first `DELETE FROM
approvals WHERE expires_at <= now`, then `SELECT ... WHERE expires_at >
now AND revoked = 0 ORDER BY id DESC`, then deduplicate keeping the first
row per service. Returns the updated table and the loaded approvals. -/
def getActiveApprovals (now : Nat) (db : List ApprovalRow) :
    List ApprovalRow × List Approval :=
  let db1 := db.filter (fun r => !(decide (r.expiresAt ≤ now)))
  let rows := (db1.filter (rowLive now)).insertionSort idGe
  (db1, (dedupeByService rows []).map rowToApproval)

/-- `ApprovalManager.restoreApprovals` from `approval.ts`: install each
loaded approval into the in-memory map keyed by service. -/
def restoreApprovals (saved : List Approval) : List (String × Approval) :=
  saved.foldl (fun m a => setKV m a.service a) []

/-- `AuditLogger.revokeApprovalInDb` from `audit.ts`:
`UPDATE approvals SET revoked = 1 WHERE service = ? AND revoked = 0`. -/
def revokeApprovalInDb (service : String) (db : List ApprovalRow) : List ApprovalRow :=
  db.map (fun r => if r.service = service ∧ r.revoked = false then { r with revoked := true } else r)

/-- `AuditLogger.logApproval` from `audit.ts`: append a fresh non-revoked
row with `expires_at = now + ttl`. -/
def logApproval (db : List ApprovalRow) (freshId now : Nat) (service approvedBy : String)
    (ttlSeconds : Nat) : List ApprovalRow :=
  db ++ [⟨freshId, now, service, approvedBy, ttlSeconds, now + ttlSeconds * 1000, false⟩]

/-- Keep whichever row is newer (greater autoincrement id). -/
def pickNewer (acc : Option ApprovalRow) (r : ApprovalRow) : Option ApprovalRow :=
  match acc with
  | none => some r
  | some m => if m.id < r.id then some r else some m

/-- Specification-level view, following the claim words for C4: from the
persisted set, the live view for a service is the not-expired, not-revoked
row with the greatest id (the newest one), if any. -/
def newestLiveRow (db : List ApprovalRow) (now : Nat) (s : String) : Option ApprovalRow :=
  (db.filter (fun r => r.service = s && rowLive now r)).foldl pickNewer none

/-! ## `ApprovalManager` policy evaluation (`approval.ts`) -/

/-- `ApprovalManager.matchesRule`: a truthy method predicate must match
case-insensitively (`toUpperCase` comparison), a truthy path predicate must
be a prefix of the path (a missing or empty predicate string is falsy). -/
def matchesRule (rule : PolicyRule) (method path : String) : Bool :=
  if rule.matchMethod.getD "" ≠ "" ∧
      jsToUpper (rule.matchMethod.getD "") ≠ jsToUpper method then false
  else if rule.matchPath.getD "" ≠ "" ∧ ¬ jsStartsWith path (rule.matchPath.getD "") then false
  else true

/-- `ApprovalManager.getAction`: first matching rule wins, else the
service default (`true` = `auto_approve`). -/
def getAction (svc : ServiceConfig) (method path : String) : Bool :=
  match svc.policyRules.find? (fun rule => matchesRule rule method path) with
  | some rule => rule.action
  | none => svc.policyDefault

/-! ## Grant/revocation event order (`approval.ts` lines 258-283)

The temporal claims C9 is about are the statement order of the approved
branch of `checkApproval` and of `revokeApproval`. Each is embedded as the
ordered list of its observable effects. -/

/-- Observable effects of the approval coordinator. -/
inductive GrantEv where
  | installGrant (service : String)
  | persistGrant (service : String)
  | returnToAgent
  | dropGrant (service : String)
  | persistRevoke (service : String)
deriving Repr, DecidableEq

/-- The effect order of `checkApproval` once the race result is known:
on approval the source runs `activeApprovals.set(service, approval)`, then
`audit.logApproval(...)`, then `return true`; on denial it returns. -/
def checkApprovalEvents (approved : Bool) (service : String) : List GrantEv :=
  if approved then
    [GrantEv.installGrant service, GrantEv.persistGrant service, GrantEv.returnToAgent]
  else [GrantEv.returnToAgent]

/-- The effect order of `revokeApproval` when a grant is present: the
source runs `activeApprovals.delete(service)`, then
`audit.revokeApprovalInDb(service)`. -/
def revokeApprovalEvents (present : Bool) (service : String) : List GrantEv :=
  if present then [GrantEv.dropGrant service, GrantEv.persistRevoke service] else []

/-! ## Proxy engine (`proxy.ts`)

The two request handlers are embedded as pure functions from a request
value to an `Outcome`. The approval round trip is abstracted by the
boolean `approvalResult` argument (the value `await
approvalManager.checkApproval(...)` produces); everything up to the
dispatch of the upstream request is modelled, which is what claims C1, C2,
C3 and C6 are about. -/

/-- The slice of an Express `Request` the handlers read. `serviceParam`
is `req.params['service']` (the first path segment in path-prefix mode),
`originalUrl` is the raw request target (path plus query), `headers` the
incoming header object with Node-lowercased keys, `nowIso` the value
`new Date().toISOString()` would produce for this request. -/
structure Req where
  serviceParam : String
  originalUrl : String
  headers : List (String × String)
  method : String
  ip : String
  nowIso : String
deriving Repr, DecidableEq

/-- One row written by `audit.logRequest` (body capture fields omitted:
the pre-forward log sites the claims are about never set them). -/
structure AuditEntry where
  timestamp : String
  service : String
  method : String
  path : String
  approved : Bool
  responseStatus : Nat
  agentIp : String
deriving Repr, DecidableEq

/-- The upstream request a handler dispatches on success. -/
structure ForwardReq where
  url : URL
  headers : List (String × String)
  method : String
deriving Repr, DecidableEq

/-- Terminal outcome of a handler, up to the upstream dispatch. -/
inductive Outcome where
  | notFound (msg : String)
  | unauthorized
  | serverError
  | ssrfBlocked (audits : List AuditEntry)
  | denied (audits : List AuditEntry)
  | forward (fr : ForwardReq)
deriving Repr, DecidableEq

/-- HTTP status a non-forward outcome answers with (`none` once the
response is streamed from upstream). -/
def Outcome.status : Outcome → Option Nat
  | .notFound _ => some 404
  | .unauthorized => some 401
  | .serverError => some 500
  | .ssrfBlocked _ => some 403
  | .denied _ => some 403
  | .forward _ => none

/-- Audit rows written before any upstream dispatch. -/
def Outcome.audits : Outcome → List AuditEntry
  | .ssrfBlocked a => a
  | .denied a => a
  | _ => []

/-- Whether the outcome dispatches a request to the upstream. -/
def Outcome.contactsUpstream : Outcome → Bool
  | .forward _ => true
  | _ => false

/-- The agent-identity check shared by both handlers:
`req.headers['x-clawguard-key'] || req.headers['x-agentgate-key']`
strictly equal to `config.server.agentKey`. -/
def agentKeyOk (cfg : Config) (headers : List (String × String)) : Bool :=
  jsOrOpt (lookupKV headers "x-clawguard-key") (lookupKV headers "x-agentgate-key")
    = some cfg.agentKey

/-- One iteration of the header-copy loop of both handlers: skip the
header when its lowercased name starts with `x-clawguard` or
`x-agentgate` or equals `host`, otherwise copy it. -/
def stripStep (acc : List (String × String)) (kv : String × String) :
    List (String × String) :=
  let lower := jsToLower kv.1
  if jsStartsWith lower "x-clawguard" then acc
  else if jsStartsWith lower "x-agentgate" then acc
  else if lower = "host" then acc
  else setKV acc kv.1 kv.2

/-- The header-copy loop of both handlers. -/
def stripHeaders (headers : List (String × String)) : List (String × String) :=
  headers.foldl stripStep []

/-- Credential injection: bearer sets `authorization`, header sets the
configured header (when its name is truthy), query rewrites the upstream
URL (when the parameter name is truthy). -/
def injectAuth (auth : AuthConfig) (h : List (String × String)) (u : URL) :
    List (String × String) × URL :=
  match auth.type with
  | .bearer => (setKV h "authorization" ("Bearer " ++ auth.token), u)
  | .header =>
    match auth.headerName with
    | some n => if n = "" then (h, u) else (setKV h n auth.token, u)
    | none => (h, u)
  | .query =>
    match auth.paramName with
    | some n => if n = "" then (h, u) else (h, setQueryParam u n auth.token)
    | none => (h, u)

/-- The full forward-request build of both handlers: strip gateway
headers, inject the credential, then overwrite `host` with the upstream
host. -/
def buildForward (headers : List (String × String)) (auth : AuthConfig) (u : URL)
    (method : String) : ForwardReq :=
  let fh := stripHeaders headers
  match injectAuth auth fh u with
  | (fh2, u2) => ⟨u2, setKV fh2 "host" u2.host, method⟩

/-- `handleProxy` from `proxy.ts` (path-prefix routing), up to the
upstream dispatch. Order of checks as in the source: reserved `__` names,
service lookup, agent key, upstream URL construction, runtime SSRF guard
(with an audit row on failure), approval (with an audit row on denial),
then forward. -/
def handleProxy (cfg : Config) (req : Req) (approvalResult : Bool) : Outcome :=
  let serviceName := req.serviceParam
  if jsStartsWith serviceName "__" then .notFound "Not found"
  else
    match lookupKV cfg.services serviceName with
    | none => .notFound ("Unknown service: " ++ serviceName)
    | some svc =>
      if ¬ agentKeyOk cfg req.headers then .unauthorized
      else
        let upstreamPath := jsOrStr (jsDrop req.originalUrl (jsLength ("/" ++ serviceName))) "/"
        match newURL upstreamPath svc.upstream with
        | none => .serverError
        | some upstreamUrl =>
          if ¬ (validateRuntimeUrl upstreamUrl.toStr svc.upstream cfg.security).valid then
            .ssrfBlocked
              [⟨req.nowIso, serviceName, req.method, upstreamPath, false, 403, req.ip⟩]
          else if ¬ approvalResult then
            .denied [⟨req.nowIso, serviceName, req.method, upstreamPath, false, 403, req.ip⟩]
          else
            .forward (buildForward req.headers svc.auth upstreamUrl req.method)

/-- `resolveServiceByHost` from `proxy.ts`: first configured service whose
`hostnames` list contains the port-stripped `Host` header. -/
def resolveServiceByHost (host : Option String)
    (services : List (String × ServiceConfig)) : Option (String × ServiceConfig) :=
  match host with
  | none => none
  | some h =>
    let hostname := String.mk ((splitOnChar ':' h.data).headD h.data)
    services.find? (fun entry => entry.2.hostnames.any (fun hn => hn = hostname))

/-- `handleHostProxy` from `proxy.ts` (host-header routing), up to the
upstream dispatch. Order of checks as in the source: host resolution,
agent key, runtime SSRF guard (no audit row on failure in this handler),
approval (with an audit row on denial), then forward. -/
def handleHostProxy (cfg : Config) (req : Req) (approvalResult : Bool) : Outcome :=
  match resolveServiceByHost (lookupKV req.headers "host") cfg.services with
  | none => .notFound "Unknown host. Configure hostnames in service config for host-based routing."
  | some (serviceName, svc) =>
    if ¬ agentKeyOk cfg req.headers then .unauthorized
    else
      let upstreamPath := jsOrStr req.originalUrl "/"
      match newURL upstreamPath svc.upstream with
      | none => .serverError
      | some upstreamUrl =>
        if ¬ (validateRuntimeUrl upstreamUrl.toStr svc.upstream cfg.security).valid then
          .ssrfBlocked []
        else if ¬ approvalResult then
          .denied [⟨req.nowIso, serviceName, req.method, upstreamPath, false, 403, req.ip⟩]
        else
          .forward (buildForward req.headers svc.auth upstreamUrl req.method)

/-! ## Telegram pending-approval registry (`telegram.ts`)

The callback registry and the `Promise.race` in `checkApproval` are
embedded as a state machine. `pendingCallbacks` is the set of request ids
with a registered one-shot reply channel; `invoked` records every channel
invocation in order; `answers` records every `answerCallbackQuery`
acknowledgement; `raceResults` records, per request id, the first value
its `Promise.race` settled on (later settlement attempts are no-ops, which
is exactly the single-shot behaviour of a JS promise). -/

/-- The payload a reply channel is invoked with. -/
structure Decision where
  approved : Bool
  ttlSeconds : Nat
  approvedBy : String
deriving Repr, DecidableEq

/-- The six inline-keyboard actions. -/
inductive TAction where
  | approve_once | approve_15m | approve_1h | approve_8h | approve_24h | deny
deriving Repr, DecidableEq

/-- The `(approved, ttlSeconds)` pair each switch arm passes to the
callback (`once` is 1 second, `deny` is `(false, 0)`). -/
def actionDecision (a : TAction) (user : String) : Decision :=
  match a with
  | .approve_once => ⟨true, 1, user⟩
  | .approve_15m => ⟨true, 900, user⟩
  | .approve_1h => ⟨true, 3600, user⟩
  | .approve_8h => ⟨true, 28800, user⟩
  | .approve_24h => ⟨true, 86400, user⟩
  | .deny => ⟨false, 0, user⟩

/-- The `answerCallbackQuery` text of each switch arm. -/
def actionAck (a : TAction) : String :=
  match a with
  | .approve_once => "Approved once"
  | .approve_15m => "Approved for 15 minutes"
  | .approve_1h => "Approved for 1 hour"
  | .approve_8h => "Approved for 8 hours"
  | .approve_24h => "Approved for 24 hours"
  | .deny => "Denied"

/-- The `answerCallbackQuery` text for an unknown request id. -/
def expiredAck : String := "Request expired"

/-- State of the notifier registry plus the per-request race results. -/
structure TelegramState where
  pendingCallbacks : List String
  invoked : List (String × Decision)
  answers : List (String × String)
  raceResults : List (String × Decision)
deriving Repr, DecidableEq

/-- The empty initial state. -/
def TelegramState.init : TelegramState := ⟨[], [], [], []⟩

/-- A promise settles only once: record a race result only if the id has
none yet. -/
def resolveRace (st : TelegramState) (rid : String) (d : Decision) : TelegramState :=
  if (lookupKV st.raceResults rid).isSome then st
  else { st with raceResults := st.raceResults ++ [(rid, d)] }

/-- `requestApproval` (the part before any reply): register the reply
channel under the request id. -/
def registerPending (st : TelegramState) (rid : String) : TelegramState :=
  { st with pendingCallbacks := st.pendingCallbacks.insert rid }

/-- The `callback_query` handler of `setupCallbackHandler`: look the
request id up in `pendingCallbacks`; if absent, acknowledge "expired" and
stop; otherwise invoke the reply channel with the chosen decision (which
settles the awaiting promise), acknowledge the decision, and delete the
registry entry. -/
def onCallbackQuery (st : TelegramState) (rid : String) (a : TAction) (user : String) :
    TelegramState :=
  if rid ∈ st.pendingCallbacks then
    let d := actionDecision a user
    let st1 := { st with
      invoked := st.invoked ++ [(rid, d)]
      answers := st.answers ++ [(rid, actionAck a)] }
    let st2 := resolveRace st1 rid d
    { st2 with pendingCallbacks := st2.pendingCallbacks.erase rid }
  else { st with answers := st.answers ++ [(rid, expiredAck)] }

/-- The 120-second `timeoutPromise` of `checkApproval` firing: it settles
the race with the timeout sentinel and touches nothing else — in
particular it does not remove the `pendingCallbacks` entry. -/
def onDeadline (st : TelegramState) (rid : String) : TelegramState :=
  resolveRace st rid ⟨false, 0, "timeout"⟩

/-- The send-failure path of `requestApproval`: delete the registry entry
and settle the race as denied with the `telegram_error` sentinel. -/
def onSendFailure (st : TelegramState) (rid : String) : TelegramState :=
  let st1 := { st with pendingCallbacks := st.pendingCallbacks.erase rid }
  resolveRace st1 rid ⟨false, 0, "telegram_error"⟩

/-! ## Derived notions used by the statements -/

/-- The keys both header-copy loops drop (lowercased name starts with
`x-clawguard` or `x-agentgate`, or equals `host`). -/
def strippedKey (k : String) : Bool :=
  jsStartsWith (jsToLower k) "x-clawguard" ||
  jsStartsWith (jsToLower k) "x-agentgate" ||
  (jsToLower k = "host")

/-- The serialized upstream URL an outcome forwards to, if any. -/
def forwardUrlStr (o : Outcome) : Option String :=
  match o with
  | .forward fr => some fr.url.toStr
  | _ => none

/-- The dotted-quad literal of an IPv4 address given by its four octets. -/
def renderIPv4 (a b c d : Nat) : String :=
  String.mk (Nat.toDigits 10 a ++ '.' :: Nat.toDigits 10 b ++ '.' ::
             Nat.toDigits 10 c ++ '.' :: Nat.toDigits 10 d)

/-- Value of one hexadecimal digit. -/
def hexDigitVal (ch : Char) : Option Nat :=
  if '0' ≤ ch ∧ ch ≤ '9' then some (ch.toNat - '0'.toNat)
  else if 'a' ≤ ch ∧ ch ≤ 'f' then some (ch.toNat - 'a'.toNat + 10)
  else if 'A' ≤ ch ∧ ch ≤ 'F' then some (ch.toNat - 'A'.toNat + 10)
  else none

/-- One 16-bit group of an IPv6 literal (1 to 4 hex digits). -/
def parseHexGroup (l : List Char) : Option Nat :=
  if l = [] ∨ 4 < l.length then none
  else l.foldl
    (fun acc ch =>
      match acc, hexDigitVal ch with
      | some v, some d => some (v * 16 + d)
      | _, _ => none)
    (some 0)

/-- Parse every group or fail. -/
def parseGroups : List (List Char) → Option (List Nat)
  | [] => some []
  | g :: gs =>
    match parseHexGroup g, parseGroups gs with
    | some v, some vs => some (v :: vs)
    | _, _ => none

/-- Split a character list at the first `::`. -/
def splitDoubleColon : List Char → Option (List Char × List Char)
  | [] => none
  | ':' :: ':' :: rest => some ([], rest)
  | c :: rest =>
    match splitDoubleColon rest with
    | some (l, r) => some (c :: l, r)
    | none => none

/-- Following the spec words for C8 ("IPv6 ULA `fc00::/7`" names an
address range): parse an IPv6 literal into its eight 16-bit groups,
expanding one `::` compression. Range membership is then defined on the
numeric groups. This definition exists only to state what "a host literal
lying in the range" means; the gateway itself has no IPv6 parser. -/
def specParseIPv6 (s : String) : Option (List Nat) :=
  match splitDoubleColon s.data with
  | some (l, r) =>
    let lp := if l = [] then [] else splitOnChar ':' l
    let rp := if r = [] then [] else splitOnChar ':' r
    match parseGroups lp, parseGroups rp with
    | some lg, some rg =>
      if lg.length + rg.length ≤ 7 then
        some (lg ++ List.replicate (8 - lg.length - rg.length) 0 ++ rg)
      else none
    | _, _ => none
  | none =>
    let parts := splitOnChar ':' s.data
    if parts.length = 8 then parseGroups parts else none

/-- Membership of an IPv6 address (as its eight groups) in `fc00::/7`:
the top 7 bits of the first group are `1111110`. -/
def specInFc00_7 (groups : List Nat) : Bool :=
  match groups with
  | g :: _ => g / 512 = 126
  | [] => false

/-! ## Concrete fixtures used by counterexamples and witnesses -/

/-- The C1 service: upstream base with a non-trivial path. -/
def svcFixC1 : ServiceConfig :=
  { upstream := "https://u.example/api", auth := ⟨.bearer, "T", none, none⟩,
    policyRules := [], policyDefault := true, hostnames := ["u.example"] }

/-- The C1 gateway configuration. -/
def cfgFixC1 : Config :=
  { agentKey := "K", services := [("svc", svcFixC1)],
    security := ⟨[], false, false, 10240⟩ }

/-- The C1 path-prefix request `/svc/x/y?z=1`. -/
def reqFixC1p : Req :=
  { serviceParam := "svc", originalUrl := "/svc/x/y?z=1",
    headers := [("x-clawguard-key", "K"), ("host", "gw.local")],
    method := "GET", ip := "1.2.3.4", nowIso := "t0" }

/-- The C1 host-header request `/x?z=1` with `Host: u.example`. -/
def reqFixC1h : Req :=
  { serviceParam := "", originalUrl := "/x?z=1",
    headers := [("x-clawguard-key", "K"), ("host", "u.example")],
    method := "GET", ip := "1.2.3.4", nowIso := "t0" }

/-- The C2 configuration (one service named `svc`). -/
def cfgFixC2 : Config :=
  { agentKey := "K",
    services := [("svc",
      { upstream := "https://api.example.com", auth := ⟨.bearer, "T", none, none⟩,
        policyRules := [], policyDefault := false, hostnames := [] })],
    security := ⟨[], false, false, 10240⟩ }

/-- The C2 request: unknown service name and a wrong agent key. -/
def reqFixC2 : Req :=
  { serviceParam := "nope", originalUrl := "/nope/x",
    headers := [("x-clawguard-key", "WRONG"), ("host", "nowhere.example")],
    method := "GET", ip := "1.2.3.4", nowIso := "t0" }

/-- The C3 configuration: the service upstream is not in the allowlist,
so the runtime SSRF guard fails on every constructed URL. -/
def cfgFixC3 : Config :=
  { agentKey := "K",
    services := [("svc",
      { upstream := "https://u.example", auth := ⟨.bearer, "T", none, none⟩,
        policyRules := [], policyDefault := true, hostnames := ["u.example"] })],
    security := ⟨["other.example"], false, false, 10240⟩ }

/-- The C3 host-header request with `Host: u.example` and a valid key. -/
def reqFixC3h : Req :=
  { serviceParam := "", originalUrl := "/x",
    headers := [("x-clawguard-key", "K"), ("host", "u.example")],
    method := "GET", ip := "1.2.3.4", nowIso := "t0" }

/-- The C3 path-prefix request `/svc/x` with a valid key. -/
def reqFixC3p : Req :=
  { serviceParam := "svc", originalUrl := "/svc/x",
    headers := [("x-clawguard-key", "K"), ("host", "gw.local")],
    method := "GET", ip := "1.2.3.4", nowIso := "t0" }

/-- A request for the C2 witness: known service `svc` in path mode,
matching `Host` for host mode, but a wrong agent key. -/
def reqFixC2k : Req :=
  { serviceParam := "svc", originalUrl := "/svc/x",
    headers := [("x-clawguard-key", "WRONG"), ("host", "u.example")],
    method := "GET", ip := "1.2.3.4", nowIso := "t0" }

/-- The C4 persisted approvals table: two live rows for `gh` (ids 1 and
3), a revoked row for `gh` (id 4), an expired row for `slack` (id 2) and
a live row for `slack` (id 5). -/
def dbFixC4 : List ApprovalRow :=
  [⟨1, 10, "gh", "alice", 3600, 200, false⟩,
   ⟨2, 20, "slack", "alice", 60, 80, false⟩,
   ⟨3, 30, "gh", "bob", 3600, 300, false⟩,
   ⟨4, 40, "gh", "carol", 3600, 400, true⟩,
   ⟨5, 50, "slack", "dave", 3600, 500, false⟩]

/-- The C6 incoming headers: agent key, legacy alias, a mixed-case vendor
header, `Host`, and two ordinary headers. -/
def headersFixC6 : List (String × String) :=
  [("x-clawguard-key", "K"), ("x-agentgate-key", "K2"),
   ("host", "gw.local"), ("accept", "application/json"),
   ("user-agent", "curl")]

/-- The C6 upstream URL. -/
def urlFixC6 : URL := ⟨"https", "api.example.com", none, "/v1", none⟩

/-- The C10 approvals table: two non-revoked rows for `gh` plus one row
for another service. -/
def dbFixC10 : List ApprovalRow :=
  [⟨1, 10, "gh", "alice", 3600, 1000, false⟩,
   ⟨2, 20, "gh", "bob", 3600, 2000, false⟩,
   ⟨3, 30, "slack", "carol", 3600, 3000, false⟩]

/-! ## Generic lemmas about the JS-object association lists -/

theorem lookupKV_setKV {α : Type} (m : List (String × α)) (k k' : String) (v : α) :
    lookupKV (setKV m k v) k' = if k = k' then some v else lookupKV m k' := by
  induction m with
  | nil => simp [setKV, lookupKV]
  | cons p rest ih =>
    obtain ⟨a, w⟩ := p
    by_cases hak : a = k
    · subst hak
      by_cases hk' : a = k' <;> simp [setKV, lookupKV, hk']
    · by_cases hk' : k = k' <;> by_cases hak' : a = k' <;>
        simp_all [setKV, lookupKV]

theorem setKV_of_lookup_none {α : Type} (m : List (String × α)) (k : String) (v : α)
    (h : lookupKV m k = none) : setKV m k v = m ++ [(k, v)] := by
  induction m with
  | nil => simp [setKV]
  | cons p rest ih =>
    obtain ⟨a, w⟩ := p
    by_cases hak : a = k
    · simp [lookupKV, hak] at h
    · simp only [lookupKV, if_neg hak] at h
      simp [setKV, hak, ih h]

theorem lookupKV_append {α : Type} (m₁ m₂ : List (String × α)) (k : String) :
    lookupKV (m₁ ++ m₂) k =
      match lookupKV m₁ k with
      | some v => some v
      | none => lookupKV m₂ k := by
  induction m₁ with
  | nil => simp [lookupKV]
  | cons p rest ih =>
    obtain ⟨a, w⟩ := p
    by_cases hak : a = k <;> simp [lookupKV, hak, ih]

/-! ## C7 — upstream allowlist -/

/-- C7: the upstream-allowlist check passes iff the allowlist is empty or
some entry `E` satisfies `hostname == E` or `hostname` ends with `"." ++ E`;
with entry `example.com`, `api.example.com` passes and `evilexample.com`
does not. -/
theorem c7_allowlist :
    (∀ (hostname : String) (allowed : List String),
      isAllowedUpstream hostname allowed = true ↔
        (allowed = [] ∨ ∃ E ∈ allowed, hostname = E ∨ jsEndsWith hostname ("." ++ E) = true))
    ∧ isAllowedUpstream "api.example.com" ["example.com"] = true
    ∧ isAllowedUpstream "evilexample.com" ["example.com"] = false := by
  refine ⟨fun hostname allowed => ?_, by decide, by decide⟩
  unfold isAllowedUpstream
  rcases allowed with _ | ⟨E, rest⟩
  · simp
  · rw [if_neg (by simp), List.any_eq_true]
    constructor
    · rintro ⟨x, hx, hp⟩
      refine Or.inr ⟨x, hx, ?_⟩
      simpa using hp
    · rintro (h | ⟨x, hx, hor⟩)
      · exact absurd h (by simp)
      · exact ⟨x, hx, by simpa using hor⟩

/-! ## C1 — upstream URL construction -/

/-- C1 counterexample: at the claim's own example inputs the constructed
upstream URL drops the base path `/api`: the path-prefix request
`/svc/x/y?z=1` against base `https://u.example/api` forwards to
`https://u.example/x/y?z=1`, not `https://u.example/api/x/y?z=1`, and the
host-header request `/x?z=1` forwards to `https://u.example/x?z=1`, not
`https://u.example/api/x?z=1`. -/
theorem c1_counterexample :
    forwardUrlStr (handleProxy cfgFixC1 reqFixC1p true) = some "https://u.example/x/y?z=1"
    ∧ some "https://u.example/x/y?z=1" ≠ some "https://u.example/api/x/y?z=1"
    ∧ forwardUrlStr (handleHostProxy cfgFixC1 reqFixC1h true) = some "https://u.example/x?z=1"
    ∧ some "https://u.example/x?z=1" ≠ some "https://u.example/api/x?z=1" := by
  refine ⟨by decide, by decide, by decide, by decide⟩

/-- C1 (amended): URL construction resolves the upstream path against the
base by WHATWG rules, under which a path-absolute upstream path replaces
the base URL's entire path instead of being appended to it: for any base
that parses to `b` and any request path `/…` (not `//…`), the constructed
URL keeps only the scheme, host and port of the base and takes its path
(after dot-segment removal) and query from the request path. In both
routing modes the base path of the upstream is therefore dropped, so the
spec examples produce `https://u.example/x/y?z=1` and
`https://u.example/x?z=1`. -/
theorem c1_amended (c : Char) (rest : List Char) (base : String) (b : URL)
    (hc : c ≠ '/') (hb : parseURL base = some b) :
    newURLChars ('/' :: c :: rest) base =
      some { b with
             path := removeDotSegments (String.mk (splitPathQuery ('/' :: c :: rest)).1)
             query := ((splitPathQuery ('/' :: c :: rest)).2).map String.mk } := by
  simp [newURLChars, hb, hc, pathAbsResolve]

/-- C1 amended, applied at the spec's path-prefix example. -/
theorem c1_amended_witness :
    newURLChars ("/x/y?z=1".data) "https://u.example/api"
      = some ⟨"https", "u.example", none, "/x/y", some "z=1"⟩ := by
  have h := c1_amended 'x' ("/y?z=1".data) "https://u.example/api"
    ⟨"https", "u.example", none, "/api", none⟩ (by decide) (by decide)
  have he : "/x/y?z=1".data = '/' :: 'x' :: "/y?z=1".data := by decide
  rw [he, h]
  decide

/-! ## C5 — pending-approval reply channel -/

/-- C5: the code keeps the pending-callback entry alive across the
120-second deadline. Concretely: after `req_1` is registered and its
deadline fires (settling the await with the `timeout` sentinel), the
registry still contains `req_1` and no channel invocation has happened;
a later `approve_1h` tap then finds the entry, invokes the reply channel
(a second resolution of the request, after the deadline already resolved
it), and is acknowledged with the approval text rather than with
"Request expired" — contradicting the claim (and the repository's own
Telegram guide, which says buttons expire after the approval timeout). -/
theorem c5_code_eval :
    ("req_1" ∈ (onDeadline (registerPending TelegramState.init "req_1") "req_1").pendingCallbacks)
    ∧ (onDeadline (registerPending TelegramState.init "req_1") "req_1").invoked = []
    ∧ (onDeadline (registerPending TelegramState.init "req_1") "req_1").raceResults
        = [("req_1", ⟨false, 0, "timeout"⟩)]
    ∧ (onCallbackQuery (onDeadline (registerPending TelegramState.init "req_1") "req_1")
        "req_1" .approve_1h "alice").invoked = [("req_1", ⟨true, 3600, "alice"⟩)]
    ∧ (onCallbackQuery (onDeadline (registerPending TelegramState.init "req_1") "req_1")
        "req_1" .approve_1h "alice").answers = [("req_1", "Approved for 1 hour")]
    ∧ [("req_1", "Approved for 1 hour")] ≠ [("req_1", expiredAck)]
    ∧ (onCallbackQuery (onDeadline (registerPending TelegramState.init "req_1") "req_1")
        "req_1" .approve_1h "alice").raceResults = [("req_1", ⟨false, 0, "timeout"⟩)] := by
  refine ⟨by decide, by decide, by decide, by decide, by decide, by decide, by decide⟩

/-! ## C9 — grant persistence ordering -/

/-- C9 counterexample: in the approved branch of `checkApproval` the
in-memory install happens strictly before the Audit-Store persist (the
claim states persist-then-install), and `revokeApproval` drops the
in-memory entry strictly before writing the revoked mark (the claim
states persistence-first). -/
theorem c9_counterexample :
    ¬ ((checkApprovalEvents true "gh").indexOf (GrantEv.persistGrant "gh")
        < (checkApprovalEvents true "gh").indexOf (GrantEv.installGrant "gh"))
    ∧ (checkApprovalEvents true "gh").indexOf (GrantEv.installGrant "gh")
        < (checkApprovalEvents true "gh").indexOf (GrantEv.persistGrant "gh")
    ∧ ¬ ((revokeApprovalEvents true "gh").indexOf (GrantEv.persistRevoke "gh")
        < (revokeApprovalEvents true "gh").indexOf (GrantEv.dropGrant "gh"))
    ∧ (revokeApprovalEvents true "gh").indexOf (GrantEv.dropGrant "gh")
        < (revokeApprovalEvents true "gh").indexOf (GrantEv.persistRevoke "gh") := by
  refine ⟨by decide, by decide, by decide, by decide⟩

/-- C9 (amended): when an approval is granted the Grant is installed in
the in-memory map first and then persisted to the Audit Store
(install-then-persist), and persistence still happens before the
authorized request returns to the agent; revocation drops the in-memory
entry first and then writes the revoked mark. -/
theorem c9_amended (s : String) :
    (checkApprovalEvents true s).indexOf (GrantEv.installGrant s)
        < (checkApprovalEvents true s).indexOf (GrantEv.persistGrant s)
    ∧ (checkApprovalEvents true s).indexOf (GrantEv.persistGrant s)
        < (checkApprovalEvents true s).indexOf GrantEv.returnToAgent
    ∧ (revokeApprovalEvents true s).indexOf (GrantEv.dropGrant s)
        < (revokeApprovalEvents true s).indexOf (GrantEv.persistRevoke s) := by
  have h1 : GrantEv.installGrant s ≠ GrantEv.persistGrant s := by simp
  have h2 : GrantEv.installGrant s ≠ GrantEv.returnToAgent := by simp
  have h3 : GrantEv.persistGrant s ≠ GrantEv.returnToAgent := by simp
  have h4 : GrantEv.dropGrant s ≠ GrantEv.persistRevoke s := by simp
  refine ⟨?_, ?_, ?_⟩ <;>
    simp [checkApprovalEvents, revokeApprovalEvents,
      List.indexOf_cons_self, List.indexOf_cons_ne, h1, h2, h3, h4,
      h1.symm, h2.symm, h3.symm, h4.symm]

/-! ## C10 — revocation marks every persisted row -/

theorem revoked_of_mem_revoke {db : List ApprovalRow} {s : String} {r : ApprovalRow}
    (hr : r ∈ revokeApprovalInDb s db) (hs : r.service = s) : r.revoked = true := by
  unfold revokeApprovalInDb at hr
  obtain ⟨r0, hr0, heq⟩ := List.mem_map.mp hr
  by_cases hc : r0.service = s ∧ r0.revoked = false
  · rw [if_pos hc] at heq
    subst heq
    rfl
  · rw [if_neg hc] at heq
    have hs0 : r0.service = s := by rw [heq]; exact hs
    rcases Bool.eq_false_or_eq_true r0.revoked with hrev | hrev
    · rw [← heq]
      exact hrev
    · exact absurd ⟨hs0, hrev⟩ hc

theorem mem_of_mem_dedupe {r : ApprovalRow} :
    ∀ {l : List ApprovalRow} {seen : List String}, r ∈ dedupeByService l seen → r ∈ l := by
  intro l
  induction l with
  | nil => intro seen h; simp [dedupeByService] at h
  | cons a t ih =>
    intro seen h
    unfold dedupeByService at h
    by_cases hm : a.service ∈ seen
    · rw [if_pos hm] at h
      exact List.mem_cons_of_mem a (ih h)
    · rw [if_neg hm] at h
      rcases List.mem_cons.mp h with he | ht
      · exact he ▸ List.mem_cons_self a t
      · exact List.mem_cons_of_mem a (ih ht)

theorem loaded_service_ne_of_revoke (db : List ApprovalRow) (s : String) (now : Nat) :
    ∀ a ∈ (getActiveApprovals now (revokeApprovalInDb s db)).2, a.service ≠ s := by
  intro a ha
  unfold getActiveApprovals at ha
  simp only at ha
  obtain ⟨r, hrd, hra⟩ := List.mem_map.mp ha
  have hrows := mem_of_mem_dedupe hrd
  have hperm := List.perm_insertionSort idGe
    (((revokeApprovalInDb s db).filter (fun r => !(decide (r.expiresAt ≤ now)))).filter (rowLive now))
  have hrf : r ∈ ((revokeApprovalInDb s db).filter
      (fun r => !(decide (r.expiresAt ≤ now)))).filter (rowLive now) :=
    (hperm.mem_iff).mp hrows
  have hlive : rowLive now r = true := (List.mem_filter.mp hrf).2
  have hmem1 : r ∈ (revokeApprovalInDb s db).filter (fun r => !(decide (r.expiresAt ≤ now))) :=
    (List.mem_filter.mp hrf).1
  have hmem : r ∈ revokeApprovalInDb s db := (List.mem_filter.mp hmem1).1
  intro hserv
  have hsr : r.service = s := by rw [← hra] at hserv; exact hserv
  have hrev : r.revoked = true := revoked_of_mem_revoke hmem hsr
  unfold rowLive at hlive
  rw [hrev] at hlive
  simp at hlive

theorem foldl_setKV_lookup_none (saved : List Approval) (s : String) :
    ∀ (m : List (String × Approval)), lookupKV m s = none →
      (∀ a ∈ saved, a.service ≠ s) →
      lookupKV (saved.foldl (fun acc a => setKV acc a.service a) m) s = none := by
  induction saved with
  | nil => intro m hm _; simpa using hm
  | cons a t ih =>
    intro m hm h
    simp only [List.foldl_cons]
    apply ih
    · rw [lookupKV_setKV]
      rw [if_neg (h a (List.mem_cons_self a t))]
      exact hm
    · intro b hb
      exact h b (List.mem_cons_of_mem a hb)

/-- C10: `revokeApprovalInDb` marks every non-revoked persisted row of the
service as revoked (not only the most recent one), so a subsequent startup
hydration restores no grant for that service: every loaded approval is for
another service and the reconstructed map has no entry for it. -/
theorem c10_revoke_all_rows (db : List ApprovalRow) (s : String) (now : Nat) :
    (revokeApprovalInDb s db).all (fun r => r.service != s || r.revoked) = true
    ∧ ((getActiveApprovals now (revokeApprovalInDb s db)).2).all
        (fun a => a.service != s) = true
    ∧ lookupKV (restoreApprovals (getActiveApprovals now (revokeApprovalInDb s db)).2) s
        = none := by
  refine ⟨?_, ?_, ?_⟩
  · rw [List.all_eq_true]
    intro r hr
    by_cases hs : r.service = s
    · simp [revoked_of_mem_revoke hr hs]
    · simp [hs]
  · rw [List.all_eq_true]
    intro a ha
    simpa using loaded_service_ne_of_revoke db s now a ha
  · unfold restoreApprovals
    exact foldl_setKV_lookup_none _ s [] rfl (loaded_service_ne_of_revoke db s now)

/-! ## C8 — private-IP classification -/

theorem isPrefixOf_self_append (p t : List Char) : p.isPrefixOf (p ++ t) = true := by
  rw [List.isPrefixOf_iff_prefix]
  exact List.prefix_append p t

theorem isPrivateIP_of_ipv4_pre (pre t : List Char)
    (hpre : pre = "127.".data ∨ pre = "10.".data ∨ pre = "192.168.".data ∨
            pre = "169.254.".data ∨ pre = "0.".data) :
    isPrivateIP (String.mk (pre ++ t)) = true := by
  rcases hpre with h | h | h | h | h <;> subst h <;>
    simp [isPrivateIP, isPrefixOf_self_append]

theorem isPrivateIP_of_t172 (l : List Char) (h : test172 l = true) :
    isPrivateIP (String.mk l) = true := by
  simp [isPrivateIP, h]

/-- C8 counterexample: `fd00::1` is an IPv6 host literal lying in
`fc00::/7` (its eight groups parse to `fd00,0,…,0,1` whose leading 7 bits
are `1111110`), yet `isPrivateIP` classifies it as not private — the
regex only recognises literals spelled with the textual prefix `fc00:`.
Hence the code does not classify every host literal lying in `fc00::/7`
as private. -/
theorem c8_counterexample :
    (specParseIPv6 "fd00::1").map specInFc00_7 = some true
    ∧ isPrivateIP "fd00::1" = false := by
  refine ⟨by decide, by decide⟩

/-- C8 (amended): matching is textual, not numeric. Every dotted-quad
IPv4 literal in `127.0.0.0/8`, `10.0.0.0/8`, `0.0.0.0/8`,
`192.168.0.0/16`, `169.254.0.0/16` and `172.16.0.0/12` is classified
private; IPv6 coverage is only textual: the exact literal `::1` plus any
literal beginning with `fc00:` or `fe80:` case-insensitively (so not all
of `::1`-equivalent spellings, `fc00::/7` or `fe80::/10`); and
`validateUpstreamUrl` rejects any URL whose parsed hostname is so
classified whenever private-IP blocking is enabled. -/
theorem c8_amended :
    (∀ a b c d : Nat,
      (a = 127 ∨ a = 10 ∨ a = 0 ∨ (a = 192 ∧ b = 168) ∨ (a = 169 ∧ b = 254) ∨
        (a = 172 ∧ 16 ≤ b ∧ b ≤ 31)) →
      isPrivateIP (renderIPv4 a b c d) = true)
    ∧ isPrivateIP "::1" = true
    ∧ (∀ s : String, "fc00:".data.isPrefixOf (lowerChars s.data) = true →
        isPrivateIP s = true)
    ∧ (∀ s : String, "fe80:".data.isPrefixOf (lowerChars s.data) = true →
        isPrivateIP s = true)
    ∧ (∀ (sec : SecurityConfig) (url : String) (u : URL),
        sec.blockPrivateIPs = true → parseURL url = some u →
        isPrivateIP u.hostname = true →
        (validateUpstreamUrl url sec).valid = false) := by
  refine ⟨?_, by decide, ?_, ?_, ?_⟩
  · intro a b c d hcase
    rcases hcase with h | h | h | ⟨ha, hb⟩ | ⟨ha, hb⟩ | ⟨ha, hb, hb'⟩
    · subst h
      unfold renderIPv4
      rw [show Nat.toDigits 10 127 = ['1', '2', '7'] from by decide]
      exact isPrivateIP_of_ipv4_pre "127.".data _ (by left; rfl)
    · subst h
      unfold renderIPv4
      rw [show Nat.toDigits 10 10 = ['1', '0'] from by decide]
      exact isPrivateIP_of_ipv4_pre "10.".data _ (by right; left; rfl)
    · subst h
      unfold renderIPv4
      rw [show Nat.toDigits 10 0 = ['0'] from by decide]
      exact isPrivateIP_of_ipv4_pre "0.".data _ (by right; right; right; right; rfl)
    · subst ha; subst hb
      unfold renderIPv4
      rw [show Nat.toDigits 10 192 = ['1', '9', '2'] from by decide,
          show Nat.toDigits 10 168 = ['1', '6', '8'] from by decide]
      exact isPrivateIP_of_ipv4_pre "192.168.".data _ (by right; right; left; rfl)
    · subst ha; subst hb
      unfold renderIPv4
      rw [show Nat.toDigits 10 169 = ['1', '6', '9'] from by decide,
          show Nat.toDigits 10 254 = ['2', '5', '4'] from by decide]
      exact isPrivateIP_of_ipv4_pre "169.254.".data _ (by right; right; right; left; rfl)
    · subst ha
      unfold renderIPv4
      apply isPrivateIP_of_t172
      interval_cases b <;> rfl
  · intro s h
    simp [isPrivateIP, lowerChars] at h ⊢
    simp [h]
  · intro s h
    simp [isPrivateIP, lowerChars] at h ⊢
    simp [h]
  · intro sec url u hblock hparse hpriv
    simp only [validateUpstreamUrl, hparse]
    split_ifs with h1 h2 h3 <;>
      first
        | rfl
        | (exact absurd ⟨hblock, hpriv⟩ h2)

/-- C8 amended, applied at concrete inputs. -/
theorem c8_amended_witness :
    isPrivateIP (renderIPv4 127 0 0 1) = true
    ∧ isPrivateIP (renderIPv4 172 16 0 1) = true
    ∧ isPrivateIP (renderIPv4 192 168 1 9) = true
    ∧ (validateUpstreamUrl "http://10.0.0.5/x" ⟨[], true, false, 10240⟩).valid = false := by
  refine ⟨c8_amended.1 127 0 0 1 (by left; rfl),
          c8_amended.1 172 16 0 1 (by right; right; right; right; right; exact ⟨rfl, by omega, by omega⟩),
          c8_amended.1 192 168 1 9 (by right; right; right; left; exact ⟨rfl, rfl⟩),
          c8_amended.2.2.2.2 ⟨[], true, false, 10240⟩ "http://10.0.0.5/x"
            ⟨"http", "10.0.0.5", none, "/x", none⟩ rfl (by decide) (by decide)⟩

/-! ## C2 — agent-identity check -/

/-- C2 counterexample: a request whose agent key is wrong but whose
service (or host) does not resolve is answered 404, not 401 — the
resolution check runs before the identity check in both handlers, so the
claimed "401 regardless of whether the named service or host exists" is
false. -/
theorem c2_counterexample :
    agentKeyOk cfgFixC2 reqFixC2.headers = false
    ∧ lookupKV cfgFixC2.services "nope" = none
    ∧ handleProxy cfgFixC2 reqFixC2 true = .notFound "Unknown service: nope"
    ∧ (handleProxy cfgFixC2 reqFixC2 true).status = some 404
    ∧ (some 404 : Option Nat) ≠ some 401
    ∧ resolveServiceByHost (lookupKV reqFixC2.headers "host") cfgFixC2.services = none
    ∧ handleHostProxy cfgFixC2 reqFixC2 true
        = .notFound "Unknown host. Configure hostnames in service config for host-based routing." := by
  refine ⟨by decide, by decide, by decide, by decide, by decide, by decide, by decide⟩

/-- C2 (amended): once the request resolves to a configured service (path
mode) or to a configured intercept host (host mode), an absent or
mismatched agent-secret header — canonical name or legacy alias — is
answered 401 with no audit row and no upstream contact, whatever the
approval oracle would have said; but when resolution fails the gateway
answers 404 before ever checking the key. -/
theorem c2_amended (cfg : Config) (req : Req) (o : Bool) :
    (∀ svc : ServiceConfig,
      jsStartsWith req.serviceParam "__" = false →
      lookupKV cfg.services req.serviceParam = some svc →
      agentKeyOk cfg req.headers = false →
      handleProxy cfg req o = .unauthorized
        ∧ (handleProxy cfg req o).status = some 401
        ∧ (handleProxy cfg req o).audits = []
        ∧ (handleProxy cfg req o).contactsUpstream = false)
    ∧ (∀ p : String × ServiceConfig,
      resolveServiceByHost (lookupKV req.headers "host") cfg.services = some p →
      agentKeyOk cfg req.headers = false →
      handleHostProxy cfg req o = .unauthorized
        ∧ (handleHostProxy cfg req o).status = some 401
        ∧ (handleHostProxy cfg req o).audits = []
        ∧ (handleHostProxy cfg req o).contactsUpstream = false) := by
  constructor
  · intro svc h1 h2 h3
    have he : handleProxy cfg req o = .unauthorized := by
      simp [handleProxy, h1, h2, h3]
    exact ⟨he, by rw [he]; rfl, by rw [he]; rfl, by rw [he]; rfl⟩
  · intro p h1 h2
    obtain ⟨n, svc⟩ := p
    have he : handleHostProxy cfg req o = .unauthorized := by
      simp [handleHostProxy, h1, h2]
    exact ⟨he, by rw [he]; rfl, by rw [he]; rfl, by rw [he]; rfl⟩

/-- C2 amended, applied at a concrete resolving request with a wrong key
in both routing modes. -/
theorem c2_amended_witness :
    handleProxy cfgFixC3 reqFixC2k true = .unauthorized
    ∧ handleHostProxy cfgFixC3 reqFixC2k true = .unauthorized := by
  refine ⟨((c2_amended cfgFixC3 reqFixC2k true).1
            ⟨"https://u.example", ⟨.bearer, "T", none, none⟩, [], true, ["u.example"]⟩
            (by decide) (by decide) (by decide)).1,
          ((c2_amended cfgFixC3 reqFixC2k true).2
            ("svc", ⟨"https://u.example", ⟨.bearer, "T", none, none⟩, [], true, ["u.example"]⟩)
            (by decide) (by decide)).1⟩

/-! ## C3 — SSRF guard outcome and audit -/

/-- C3 counterexample: in host-header mode a runtime SSRF failure is
answered 403 but writes no audit record at all, contradicting "exactly
one AuditRecord with approved=false and status=403 in both routing
modes". -/
theorem c3_counterexample :
    handleHostProxy cfgFixC3 reqFixC3h true = .ssrfBlocked []
    ∧ (handleHostProxy cfgFixC3 reqFixC3h true).status = some 403
    ∧ (handleHostProxy cfgFixC3 reqFixC3h true).audits = []
    ∧ (([] : List AuditEntry).length = 1) = False := by
  refine ⟨by decide, by decide, by decide, by simp⟩

/-- C3 (amended): when the runtime SSRF guard fails on the constructed
upstream URL the client receives 403 in both routing modes and no
upstream is contacted; but only the path-prefix handler writes the single
AuditRecord with approved=false and status=403 — the host-header handler
writes no audit record for an SSRF denial. -/
theorem c3_amended (cfg : Config) (req : Req) (o : Bool) :
    (∀ (svc : ServiceConfig) (u : URL),
      jsStartsWith req.serviceParam "__" = false →
      lookupKV cfg.services req.serviceParam = some svc →
      agentKeyOk cfg req.headers = true →
      newURL (jsOrStr (jsDrop req.originalUrl (jsLength ("/" ++ req.serviceParam))) "/")
          svc.upstream = some u →
      (validateRuntimeUrl u.toStr svc.upstream cfg.security).valid = false →
      handleProxy cfg req o
        = .ssrfBlocked [⟨req.nowIso, req.serviceParam, req.method,
            jsOrStr (jsDrop req.originalUrl (jsLength ("/" ++ req.serviceParam))) "/",
            false, 403, req.ip⟩]
        ∧ (handleProxy cfg req o).status = some 403
        ∧ (handleProxy cfg req o).audits.map (fun a => (a.approved, a.responseStatus))
            = [(false, 403)]
        ∧ (handleProxy cfg req o).contactsUpstream = false)
    ∧ (∀ (p : String × ServiceConfig) (u : URL),
      resolveServiceByHost (lookupKV req.headers "host") cfg.services = some p →
      agentKeyOk cfg req.headers = true →
      newURL (jsOrStr req.originalUrl "/") p.2.upstream = some u →
      (validateRuntimeUrl u.toStr p.2.upstream cfg.security).valid = false →
      handleHostProxy cfg req o = .ssrfBlocked []
        ∧ (handleHostProxy cfg req o).status = some 403
        ∧ (handleHostProxy cfg req o).audits = []
        ∧ (handleHostProxy cfg req o).contactsUpstream = false) := by
  constructor
  · intro svc u h1 h2 h3 h4 h5
    have he : handleProxy cfg req o
        = .ssrfBlocked [⟨req.nowIso, req.serviceParam, req.method,
            jsOrStr (jsDrop req.originalUrl (jsLength ("/" ++ req.serviceParam))) "/",
            false, 403, req.ip⟩] := by
      simp [handleProxy, h1, h2, h3, h4, h5]
    exact ⟨he, by rw [he]; rfl, by rw [he]; rfl, by rw [he]; rfl⟩
  · intro p u h1 h2 h3 h4
    obtain ⟨n, svc⟩ := p
    have he : handleHostProxy cfg req o = .ssrfBlocked [] := by
      simp [handleHostProxy, h1, h2, h3, h4]
    exact ⟨he, by rw [he]; rfl, by rw [he]; rfl, by rw [he]; rfl⟩

/-- C3 amended, applied at concrete SSRF-failing requests in both
routing modes. -/
theorem c3_amended_witness :
    handleProxy cfgFixC3 reqFixC3p true
      = .ssrfBlocked [⟨"t0", "svc", "GET", "/x", false, 403, "1.2.3.4"⟩]
    ∧ handleHostProxy cfgFixC3 reqFixC3h true = .ssrfBlocked [] := by
  have hp := ((c3_amended cfgFixC3 reqFixC3p true).1
    ⟨"https://u.example", ⟨.bearer, "T", none, none⟩, [], true, ["u.example"]⟩
    ⟨"https", "u.example", none, "/x", none⟩
    (by decide) (by decide) (by decide) (by decide) (by decide)).1
  have hh := ((c3_amended cfgFixC3 reqFixC3h true).2
    ("svc", ⟨"https://u.example", ⟨.bearer, "T", none, none⟩, [], true, ["u.example"]⟩)
    ⟨"https", "u.example", none, "/x", none⟩
    (by decide) (by decide) (by decide) (by decide)).1
  constructor
  · rw [hp]
    decide
  · exact hh

/-! ## C6 — header shaping -/

theorem lookupKV_eq_none_of_not_mem {α : Type} (m : List (String × α)) (k : String)
    (h : k ∉ m.map Prod.fst) : lookupKV m k = none := by
  induction m with
  | nil => rfl
  | cons p rest ih =>
    have hpk : p.1 ≠ k := by
      intro e
      exact h (by simp [e])
    have hr : k ∉ rest.map Prod.fst := by
      intro hm
      exact h (by simp [hm])
    obtain ⟨a, w⟩ := p
    simp only [lookupKV, if_neg hpk]
    exact ih hr

theorem stripStep_eq (acc : List (String × String)) (kv : String × String) :
    stripStep acc kv = if strippedKey kv.1 then acc else setKV acc kv.1 kv.2 := by
  unfold stripStep strippedKey
  by_cases h1 : jsStartsWith (jsToLower kv.1) "x-clawguard" = true <;>
    by_cases h2 : jsStartsWith (jsToLower kv.1) "x-agentgate" = true <;>
      by_cases h3 : jsToLower kv.1 = "host" <;>
        simp [h1, h2, h3]

theorem stripHeaders_go (hs : List (String × String)) :
    ∀ (acc : List (String × String)) (k : String),
      (hs.map Prod.fst).Nodup →
      (∀ q ∈ hs, lookupKV acc q.1 = none) →
      lookupKV (hs.foldl stripStep acc) k =
        if strippedKey k then lookupKV acc k
        else
          match lookupKV hs k with
          | some v => some v
          | none => lookupKV acc k := by
  induction hs with
  | nil =>
    intro acc k _ _
    cases h : strippedKey k <;> simp [lookupKV, h]
  | cons q t ih =>
    intro acc k hnd hdisj
    have hndt : (t.map Prod.fst).Nodup := (List.nodup_cons.mp hnd).2
    have hq1 : q.1 ∉ t.map Prod.fst := (List.nodup_cons.mp hnd).1
    rw [List.foldl_cons, stripStep_eq]
    by_cases hsq : strippedKey q.1 = true
    · rw [if_pos hsq]
      have := ih acc k hndt (fun p hp => hdisj p (List.mem_cons_of_mem q hp))
      rw [this]
      by_cases hsk : strippedKey k = true
      · simp [hsk]
      · have hqk : q.1 ≠ k := by
          intro e
          exact hsk (e ▸ hsq)
        simp only [hsk, if_false, Bool.false_eq_true]
        obtain ⟨a, w⟩ := q
        simp only [lookupKV, if_neg hqk]
    · rw [if_neg hsq]
      have hdisj' : ∀ p ∈ t, lookupKV (setKV acc q.1 q.2) p.1 = none := by
        intro p hp
        rw [lookupKV_setKV]
        have hne : q.1 ≠ p.1 := by
          intro e
          exact hq1 (e ▸ List.mem_map_of_mem Prod.fst hp)
        rw [if_neg hne]
        exact hdisj p (List.mem_cons_of_mem q hp)
      have := ih (setKV acc q.1 q.2) k hndt hdisj'
      rw [this]
      by_cases hsk : strippedKey k = true
      · have hqk : q.1 ≠ k := by
          intro e
          exact hsq (e.symm ▸ hsk)
        simp only [hsk, if_true]
        rw [lookupKV_setKV, if_neg hqk]
      · simp only [hsk, if_false, Bool.false_eq_true]
        by_cases hqk : q.1 = k
        · have htk : lookupKV t k = none :=
            lookupKV_eq_none_of_not_mem t k (hqk ▸ hq1)
          rw [htk]
          obtain ⟨a, w⟩ := q
          simp only [lookupKV]
          simp only at hqk
          rw [if_pos hqk, lookupKV_setKV, if_pos hqk]
        · obtain ⟨a, w⟩ := q
          simp only at hqk
          simp only [lookupKV, if_neg hqk]
          cases htk : lookupKV t k with
          | some v => rfl
          | none => rw [lookupKV_setKV, if_neg hqk]

theorem stripHeaders_lookup (hs : List (String × String)) (k : String)
    (hnd : (hs.map Prod.fst).Nodup) :
    lookupKV (stripHeaders hs) k =
      if strippedKey k then none else lookupKV hs k := by
  unfold stripHeaders
  rw [stripHeaders_go hs [] k hnd (fun _ _ => rfl)]
  by_cases hsk : strippedKey k = true
  · simp [hsk, lookupKV]
  · simp only [hsk, if_false, Bool.false_eq_true]
    cases h : lookupKV hs k <;> simp [lookupKV]

/-- C6: in the forwarded request every incoming header whose lowercase
name starts with the vendor prefixes and the `Host` header are gone;
`host` is set to the upstream URL's host (unchanged by credential
injection); the bearer credential is present after stripping; and every
other incoming header not targeted by injection is forwarded unchanged —
so the agent key never reaches the upstream. The hypotheses say that the
incoming header object has JS-object (distinct) keys and that a
configured injection header is not itself a gateway-internal name. -/
theorem c6_header_shaping (headers : List (String × String)) (auth : AuthConfig)
    (u : URL) (m : String)
    (hnd : (headers.map Prod.fst).Nodup)
    (hhn : ∀ n, auth.headerName = some n → strippedKey n = false) :
    (∀ k, (jsStartsWith (jsToLower k) "x-clawguard" = true ∨
           jsStartsWith (jsToLower k) "x-agentgate" = true) →
        lookupKV (buildForward headers auth u m).headers k = none)
    ∧ lookupKV (buildForward headers auth u m).headers "host"
        = some (buildForward headers auth u m).url.host
    ∧ (buildForward headers auth u m).url.hostname = u.hostname
    ∧ (buildForward headers auth u m).url.host = u.host
    ∧ (auth.type = AuthType.bearer →
        lookupKV (buildForward headers auth u m).headers "authorization"
          = some ("Bearer " ++ auth.token))
    ∧ (∀ k v, strippedKey k = false → k ≠ "host" → k ≠ "authorization" →
        (∀ n, auth.headerName = some n → k ≠ n) →
        lookupKV headers k = some v →
        lookupKV (buildForward headers auth u m).headers k = some v)
    ∧ (buildForward headers auth u m).method = m := by
  have hstrip : ∀ k, strippedKey k = true → lookupKV (stripHeaders headers) k = none := by
    intro k hk
    rw [stripHeaders_lookup headers k hnd, if_pos hk]
  have hkeep : ∀ k, strippedKey k = false →
      lookupKV (stripHeaders headers) k = lookupKV headers k := by
    intro k hk
    rw [stripHeaders_lookup headers k hnd, hk]
    simp
  have hvendorStripped : ∀ k, (jsStartsWith (jsToLower k) "x-clawguard" = true ∨
      jsStartsWith (jsToLower k) "x-agentgate" = true) → strippedKey k = true := by
    intro k hv
    unfold strippedKey
    rcases hv with h | h <;> simp [h]
  have hvendorNotHost : ∀ k, (jsStartsWith (jsToLower k) "x-clawguard" = true ∨
      jsStartsWith (jsToLower k) "x-agentgate" = true) → "host" ≠ k := by
    intro k hv e
    rw [← e] at hv
    rcases hv with h | h <;> exact absurd h (by decide)
  have hvendorNotAuth : ∀ k, (jsStartsWith (jsToLower k) "x-clawguard" = true ∨
      jsStartsWith (jsToLower k) "x-agentgate" = true) → "authorization" ≠ k := by
    intro k hv e
    rw [← e] at hv
    rcases hv with h | h <;> exact absurd h (by decide)
  obtain ⟨ty, token, hn, pn⟩ := auth
  cases ty with
  | bearer =>
    refine ⟨?_, ?_, rfl, rfl, ?_, ?_, rfl⟩
    · intro k hv
      show lookupKV (setKV (setKV (stripHeaders headers) "authorization"
        ("Bearer " ++ token)) "host" u.host) k = none
      rw [lookupKV_setKV, if_neg (hvendorNotHost k hv),
          lookupKV_setKV, if_neg (hvendorNotAuth k hv)]
      exact hstrip k (hvendorStripped k hv)
    · show lookupKV (setKV (setKV (stripHeaders headers) "authorization"
        ("Bearer " ++ token)) "host" u.host) "host" = some u.host
      rw [lookupKV_setKV, if_pos rfl]
    · intro _
      show lookupKV (setKV (setKV (stripHeaders headers) "authorization"
        ("Bearer " ++ token)) "host" u.host) "authorization" = some ("Bearer " ++ token)
      rw [lookupKV_setKV, if_neg (by decide), lookupKV_setKV, if_pos rfl]
    · intro k v hsk hkh hka _ hlk
      show lookupKV (setKV (setKV (stripHeaders headers) "authorization"
        ("Bearer " ++ token)) "host" u.host) k = some v
      rw [lookupKV_setKV, if_neg (fun e => hkh e.symm),
          lookupKV_setKV, if_neg (fun e => hka e.symm), hkeep k hsk]
      exact hlk
  | header =>
    cases hn with
    | none =>
      refine ⟨?_, ?_, rfl, rfl, fun h => by simp at h, ?_, rfl⟩
      · intro k hv
        show lookupKV (setKV (stripHeaders headers) "host" u.host) k = none
        rw [lookupKV_setKV, if_neg (hvendorNotHost k hv)]
        exact hstrip k (hvendorStripped k hv)
      · show lookupKV (setKV (stripHeaders headers) "host" u.host) "host" = some u.host
        rw [lookupKV_setKV, if_pos rfl]
      · intro k v hsk hkh _ _ hlk
        show lookupKV (setKV (stripHeaders headers) "host" u.host) k = some v
        rw [lookupKV_setKV, if_neg (fun e => hkh e.symm), hkeep k hsk]
        exact hlk
    | some n =>
      by_cases hne : n = ""
      · subst hne
        refine ⟨?_, ?_, rfl, rfl, fun h => by simp at h, ?_, rfl⟩
        · intro k hv
          show lookupKV (setKV (stripHeaders headers) "host" u.host) k = none
          rw [lookupKV_setKV, if_neg (hvendorNotHost k hv)]
          exact hstrip k (hvendorStripped k hv)
        · show lookupKV (setKV (stripHeaders headers) "host" u.host) "host" = some u.host
          rw [lookupKV_setKV, if_pos rfl]
        · intro k v hsk hkh _ _ hlk
          show lookupKV (setKV (stripHeaders headers) "host" u.host) k = some v
          rw [lookupKV_setKV, if_neg (fun e => hkh e.symm), hkeep k hsk]
          exact hlk
      · have hout : buildForward headers ⟨AuthType.header, token, some n, pn⟩ u m
            = ⟨u, setKV (setKV (stripHeaders headers) n token) "host" u.host, m⟩ := by
          simp [buildForward, injectAuth, hne]
        rw [hout]
        have hnk : strippedKey n = false := hhn n rfl
        have hnHost : n ≠ "host" := by
          intro e
          rw [e] at hnk
          exact absurd hnk (by decide)
        refine ⟨?_, ?_, rfl, rfl, fun h => by simp at h, ?_, rfl⟩
        · intro k hv
          show lookupKV (setKV (setKV (stripHeaders headers) n token) "host" u.host) k = none
          have hnvk : n ≠ k := by
            intro e
            rw [← e] at hv
            have hcontra := hvendorStripped n hv
            rw [hnk] at hcontra
            exact Bool.false_ne_true hcontra
          rw [lookupKV_setKV, if_neg (hvendorNotHost k hv),
              lookupKV_setKV, if_neg hnvk]
          exact hstrip k (hvendorStripped k hv)
        · show lookupKV (setKV (setKV (stripHeaders headers) n token) "host" u.host) "host"
            = some u.host
          rw [lookupKV_setKV, if_pos rfl]
        · intro k v hsk hkh _ hkn hlk
          show lookupKV (setKV (setKV (stripHeaders headers) n token) "host" u.host) k = some v
          rw [lookupKV_setKV, if_neg (fun e => hkh e.symm),
              lookupKV_setKV, if_neg (fun e => (hkn n rfl) e.symm), hkeep k hsk]
          exact hlk
  | query =>
    cases pn with
    | none =>
      refine ⟨?_, ?_, rfl, rfl, fun h => by simp at h, ?_, rfl⟩
      · intro k hv
        show lookupKV (setKV (stripHeaders headers) "host" u.host) k = none
        rw [lookupKV_setKV, if_neg (hvendorNotHost k hv)]
        exact hstrip k (hvendorStripped k hv)
      · show lookupKV (setKV (stripHeaders headers) "host" u.host) "host" = some u.host
        rw [lookupKV_setKV, if_pos rfl]
      · intro k v hsk hkh _ _ hlk
        show lookupKV (setKV (stripHeaders headers) "host" u.host) k = some v
        rw [lookupKV_setKV, if_neg (fun e => hkh e.symm), hkeep k hsk]
        exact hlk
    | some n =>
      by_cases hne : n = ""
      · subst hne
        refine ⟨?_, ?_, rfl, rfl, fun h => by simp at h, ?_, rfl⟩
        · intro k hv
          show lookupKV (setKV (stripHeaders headers) "host" u.host) k = none
          rw [lookupKV_setKV, if_neg (hvendorNotHost k hv)]
          exact hstrip k (hvendorStripped k hv)
        · show lookupKV (setKV (stripHeaders headers) "host" u.host) "host" = some u.host
          rw [lookupKV_setKV, if_pos rfl]
        · intro k v hsk hkh _ _ hlk
          show lookupKV (setKV (stripHeaders headers) "host" u.host) k = some v
          rw [lookupKV_setKV, if_neg (fun e => hkh e.symm), hkeep k hsk]
          exact hlk
      · have hout : buildForward headers ⟨AuthType.query, token, hn, some n⟩ u m
            = ⟨setQueryParam u n token,
               setKV (stripHeaders headers) "host" (setQueryParam u n token).host, m⟩ := by
          simp [buildForward, injectAuth, hne]
        rw [hout]
        refine ⟨?_, ?_, rfl, rfl, fun h => by simp at h, ?_, rfl⟩
        · intro k hv
          show lookupKV (setKV (stripHeaders headers) "host" (setQueryParam u n token).host) k
            = none
          rw [lookupKV_setKV, if_neg (hvendorNotHost k hv)]
          exact hstrip k (hvendorStripped k hv)
        · show lookupKV (setKV (stripHeaders headers) "host"
            (setQueryParam u n token).host) "host" = some (setQueryParam u n token).host
          rw [lookupKV_setKV, if_pos rfl]
        · intro k v hsk hkh _ _ hlk
          show lookupKV (setKV (stripHeaders headers) "host"
            (setQueryParam u n token).host) k = some v
          rw [lookupKV_setKV, if_neg (fun e => hkh e.symm), hkeep k hsk]
          exact hlk

/-- C6, applied at a concrete header set with a bearer credential. -/
theorem c6_header_shaping_witness :
    lookupKV (buildForward headersFixC6 ⟨AuthType.bearer, "T", none, none⟩ urlFixC6 "GET").headers
      "x-clawguard-key" = none
    ∧ lookupKV (buildForward headersFixC6 ⟨AuthType.bearer, "T", none, none⟩ urlFixC6 "GET").headers
      "x-agentgate-key" = none
    ∧ lookupKV (buildForward headersFixC6 ⟨AuthType.bearer, "T", none, none⟩ urlFixC6 "GET").headers
      "host" = some "api.example.com"
    ∧ lookupKV (buildForward headersFixC6 ⟨AuthType.bearer, "T", none, none⟩ urlFixC6 "GET").headers
      "authorization" = some "Bearer T"
    ∧ lookupKV (buildForward headersFixC6 ⟨AuthType.bearer, "T", none, none⟩ urlFixC6 "GET").headers
      "accept" = some "application/json" := by
  have h := c6_header_shaping headersFixC6 ⟨AuthType.bearer, "T", none, none⟩ urlFixC6 "GET"
    (by decide) (fun n hn => nomatch hn)
  refine ⟨h.1 "x-clawguard-key" (Or.inl (by decide)),
          h.1 "x-agentgate-key" (Or.inr (by decide)),
          ?_,
          h.2.2.2.2.1 rfl,
          h.2.2.2.2.2.1 "accept" "application/json" (by decide) (by decide) (by decide)
            (fun n hn => nomatch hn) (by decide)⟩
  have hb := h.2.1
  rw [hb]
  decide

/-! ## C4 — startup hydration -/

theorem restore_go (saved : List Approval) :
    ∀ (m : List (String × Approval)) (s : String),
      (saved.map (fun a => a.service)).Nodup →
      (∀ a ∈ saved, lookupKV m a.service = none) →
      lookupKV (saved.foldl (fun acc a => setKV acc a.service a) m) s =
        match saved.find? (fun a => a.service == s) with
        | some a => some a
        | none => lookupKV m s := by
  induction saved with
  | nil => intro m s _ _; simp
  | cons a t ih =>
    intro m s hnd hdisj
    have hndt : (t.map (fun a => a.service)).Nodup := (List.nodup_cons.mp hnd).2
    have hat : a.service ∉ t.map (fun a => a.service) := (List.nodup_cons.mp hnd).1
    have hdisj' : ∀ b ∈ t, lookupKV (setKV m a.service a) b.service = none := by
      intro b hb
      rw [lookupKV_setKV]
      have hne : a.service ≠ b.service := by
        intro e
        exact hat (e ▸ List.mem_map_of_mem (fun a => a.service) hb)
      rw [if_neg hne]
      exact hdisj b (List.mem_cons_of_mem a hb)
    rw [List.foldl_cons, ih (setKV m a.service a) s hndt hdisj']
    by_cases has : a.service = s
    · have hpa : (a.service == s) = true := by simpa using has
      rw [List.find?_cons_of_pos t hpa]
      have htf : t.find? (fun a => a.service == s) = none := by
        rw [List.find?_eq_none]
        intro x hx hp
        have hxs : x.service = s := by simpa using hp
        exact hat (has ▸ hxs ▸ List.mem_map_of_mem (fun a => a.service) hx)
      rw [htf, lookupKV_setKV, if_pos has]
    · have hpa : ¬ ((a.service == s) = true) := by simpa using has
      rw [List.find?_cons_of_neg t hpa]
      cases htf : t.find? (fun a => a.service == s) with
      | some b => rfl
      | none => rw [lookupKV_setKV, if_neg has]

theorem restore_eq_append (saved : List Approval) :
    ∀ m : List (String × Approval),
      (saved.map (fun a => a.service)).Nodup →
      (∀ a ∈ saved, lookupKV m a.service = none) →
      saved.foldl (fun acc a => setKV acc a.service a) m
        = m ++ saved.map (fun a => (a.service, a)) := by
  induction saved with
  | nil => intro m _ _; simp
  | cons a t ih =>
    intro m hnd hdisj
    have hndt : (t.map (fun a => a.service)).Nodup := (List.nodup_cons.mp hnd).2
    have hat : a.service ∉ t.map (fun a => a.service) := (List.nodup_cons.mp hnd).1
    have hset : setKV m a.service a = m ++ [(a.service, a)] :=
      setKV_of_lookup_none m a.service a (hdisj a (List.mem_cons_self a t))
    have hdisj' : ∀ b ∈ t, lookupKV (m ++ [(a.service, a)]) b.service = none := by
      intro b hb
      rw [lookupKV_append, hdisj b (List.mem_cons_of_mem a hb)]
      have hne : a.service ≠ b.service := by
        intro e
        exact hat (e ▸ List.mem_map_of_mem (fun a => a.service) hb)
      simp [lookupKV, hne]
    rw [List.foldl_cons, hset, ih (m ++ [(a.service, a)]) hndt hdisj']
    simp

theorem dedupe_services_aux :
    ∀ (l : List ApprovalRow) (seen : List String),
      ((dedupeByService l seen).map (fun r => r.service)).Nodup
      ∧ ∀ x ∈ (dedupeByService l seen).map (fun r => r.service), x ∉ seen := by
  intro l
  induction l with
  | nil => intro seen; simp [dedupeByService]
  | cons r t ih =>
    intro seen
    unfold dedupeByService
    by_cases hm : r.service ∈ seen
    · rw [if_pos hm]
      exact ih seen
    · rw [if_neg hm]
      obtain ⟨hnodup, hnotin⟩ := ih (r.service :: seen)
      constructor
      · rw [List.map_cons]
        refine List.nodup_cons.mpr ⟨?_, hnodup⟩
        intro hmem
        exact hnotin r.service hmem (List.mem_cons_self _ _)
      · intro x hx
        rw [List.map_cons] at hx
        rcases List.mem_cons.mp hx with he | hx2
        · exact he ▸ hm
        · intro hseen
          exact hnotin x hx2 (List.mem_cons_of_mem _ hseen)

theorem dedupe_find? :
    ∀ (l : List ApprovalRow) (seen : List String) (s : String), s ∉ seen →
      (dedupeByService l seen).find? (fun r => r.service == s)
        = l.find? (fun r => r.service == s) := by
  intro l
  induction l with
  | nil => intro seen s _; simp [dedupeByService]
  | cons r t ih =>
    intro seen s hs
    unfold dedupeByService
    by_cases hm : r.service ∈ seen
    · rw [if_pos hm]
      have hrs : ¬ ((r.service == s) = true) := by
        intro hp
        exact hs ((by simpa using hp : r.service = s) ▸ hm)
      rw [List.find?_cons_of_neg t hrs]
      exact ih seen s hs
    · rw [if_neg hm]
      by_cases hrs : r.service = s
      · have hp : (r.service == s) = true := by simpa using hrs
        rw [List.find?_cons_of_pos (p := fun x : ApprovalRow => x.service == s) _ hp,
            List.find?_cons_of_pos (p := fun x : ApprovalRow => x.service == s) t hp]
      · have hp : ¬ ((r.service == s) = true) := by simpa using hrs
        rw [List.find?_cons_of_neg (p := fun x : ApprovalRow => x.service == s) _ hp,
            List.find?_cons_of_neg (p := fun x : ApprovalRow => x.service == s) t hp]
        refine ih (r.service :: seen) s ?_
        intro hmem
        rcases List.mem_cons.mp hmem with he | hseen
        · exact hrs he.symm
        · exact hs hseen

theorem find?_split {α : Type} (p : α → Bool) :
    ∀ (l : List α) (r : α), l.find? p = some r →
      ∃ l₁ l₂, l = l₁ ++ r :: l₂ ∧ ∀ x ∈ l₁, p x = false := by
  intro l
  induction l with
  | nil => intro r h; simp at h
  | cons a t ih =>
    intro r h
    by_cases hp : p a = true
    · rw [List.find?_cons_of_pos t hp] at h
      injection h with h
      exact ⟨[], t, by rw [h, List.nil_append], by simp⟩
    · rw [List.find?_cons_of_neg t hp] at h
      obtain ⟨l₁, l₂, heq, hl₁⟩ := ih r h
      refine ⟨a :: l₁, l₂, by rw [heq]; rfl, ?_⟩
      intro x hx
      rcases List.mem_cons.mp hx with he | hx2
      · subst he
        exact Bool.eq_false_iff.mpr hp
      · exact hl₁ x hx2

theorem find?_sorted_max (l : List ApprovalRow) (s : String)
    (hsort : List.Sorted idGe l) (r : ApprovalRow)
    (hf : l.find? (fun r => r.service == s) = some r) :
    r ∈ l ∧ r.service = s ∧ ∀ x ∈ l, x.service = s → x.id ≤ r.id := by
  obtain ⟨l₁, l₂, heq, hl₁⟩ := find?_split _ l r hf
  have hs : r.service = s := by simpa using List.find?_some hf
  refine ⟨List.mem_of_find?_eq_some hf, hs, ?_⟩
  intro x hx hxs
  rw [heq] at hx hsort
  rcases List.mem_append.mp hx with hx1 | hx2
  · have := hl₁ x hx1
    simp only [beq_eq_false_iff_ne, ne_eq] at this
    exact absurd hxs this
  · rcases List.mem_cons.mp hx2 with he | hx3
    · rw [he]
    · have hp : List.Pairwise idGe (l₁ ++ r :: l₂) := hsort
      have hp2 := (List.pairwise_append.mp hp).2.1
      exact (List.pairwise_cons.mp hp2).1 x hx3

theorem pickfold_mem_max (l : List ApprovalRow) :
    ∀ acc r, l.foldl pickNewer acc = some r →
      (acc = some r ∨ r ∈ l)
      ∧ (∀ m, acc = some m → m.id ≤ r.id)
      ∧ (∀ x ∈ l, x.id ≤ r.id) := by
  induction l with
  | nil =>
    intro acc r h
    simp only [List.foldl_nil] at h
    refine ⟨Or.inl h, fun m hm => ?_, by simp⟩
    rw [hm] at h
    injection h with h
    rw [h]
  | cons a t ih =>
    intro acc r h
    rw [List.foldl_cons] at h
    obtain ⟨hmem, hacc, hall⟩ := ih (pickNewer acc a) r h
    have haccr : a.id ≤ r.id := by
      cases acc with
      | none => exact hacc a rfl
      | some m0 =>
        by_cases hlt : m0.id < a.id
        · exact hacc a (by simp [pickNewer, hlt])
        · have hm0 := hacc m0 (by simp [pickNewer, hlt])
          exact Nat.le_trans (Nat.le_of_not_lt hlt) hm0
    constructor
    · cases acc with
      | none =>
        right
        rcases hmem with he | ht
        · simp only [pickNewer] at he
          injection he with he
          exact he ▸ List.mem_cons_self a t
        · exact List.mem_cons_of_mem a ht
      | some m0 =>
        by_cases hlt : m0.id < a.id
        · right
          rcases hmem with he | ht
          · simp only [pickNewer, if_pos hlt] at he
            injection he with he
            exact he ▸ List.mem_cons_self a t
          · exact List.mem_cons_of_mem a ht
        · rcases hmem with he | ht
          · simp only [pickNewer, if_neg hlt] at he
            exact Or.inl he
          · exact Or.inr (List.mem_cons_of_mem a ht)
    refine ⟨?_, ?_⟩
    · intro m hm
      cases acc with
      | none => simp at hm
      | some m0 =>
        injection hm with hm2
        subst hm2
        by_cases hlt : m0.id < a.id
        · exact Nat.le_trans (Nat.le_of_lt hlt) haccr
        · exact hacc m0 (by simp [pickNewer, hlt])
    · intro x hx
      rcases List.mem_cons.mp hx with he | hx2
      · exact he ▸ haccr
      · exact hall x hx2

theorem pickfold_eq_none (l : List ApprovalRow) :
    ∀ acc, l.foldl pickNewer acc = none → acc = none ∧ l = [] := by
  induction l with
  | nil => intro acc h; exact ⟨h, rfl⟩
  | cons a t ih =>
    intro acc h
    rw [List.foldl_cons] at h
    obtain ⟨hp, -⟩ := ih (pickNewer acc a) h
    cases acc with
    | none => simp [pickNewer] at hp
    | some m0 => by_cases hlt : m0.id < a.id <;> simp [pickNewer, hlt] at hp

theorem mem_rows_iff (db : List ApprovalRow) (now : Nat) (x : ApprovalRow) :
    x ∈ ((db.filter (fun r => !(decide (r.expiresAt ≤ now)))).filter
          (rowLive now)).insertionSort idGe
      ↔ x ∈ db ∧ rowLive now x = true := by
  rw [(List.perm_insertionSort idGe _).mem_iff]
  constructor
  · intro h
    obtain ⟨h1, hlive⟩ := List.mem_filter.mp h
    exact ⟨(List.mem_filter.mp h1).1, hlive⟩
  · rintro ⟨hdb, hlive⟩
    refine List.mem_filter.mpr ⟨List.mem_filter.mpr ⟨hdb, ?_⟩, hlive⟩
    have hlt : now < x.expiresAt := by
      unfold rowLive at hlive
      simp only [Bool.and_eq_true] at hlive
      exact of_decide_eq_true hlive.1
    simp only [Bool.not_eq_eq_eq_not, Bool.not_true]
    exact decide_eq_false (Nat.not_le.mpr hlt)

/-- C4: startup hydration first deletes the rows with `expires_at ≤ now`,
then loads the remaining non-revoked rows newest-first keeping the first
per service; the reconstructed in-memory map sends each service to the
newest not-expired, not-revoked persisted row for it (or nothing), and
holds at most one entry per service. The hypothesis is the autoincrement
invariant: row ids are distinct. -/
theorem c4_hydration (db : List ApprovalRow) (now : Nat)
    (hids : (db.map (fun r => r.id)).Nodup) :
    (getActiveApprovals now db).1 = db.filter (fun r => !(decide (r.expiresAt ≤ now)))
    ∧ (∀ s, lookupKV (restoreApprovals (getActiveApprovals now db).2) s
        = (newestLiveRow db now s).map rowToApproval)
    ∧ ((restoreApprovals (getActiveApprovals now db).2).map Prod.fst).Nodup := by
  have hga : (getActiveApprovals now db).2
      = (dedupeByService (((db.filter (fun r => !(decide (r.expiresAt ≤ now)))).filter
          (rowLive now)).insertionSort idGe) []).map rowToApproval := rfl
  have hsnd : ((getActiveApprovals now db).2.map (fun a => a.service)).Nodup := by
    rw [hga, List.map_map]
    exact (dedupe_services_aux _ []).1
  refine ⟨rfl, ?_, ?_⟩
  · intro s
    unfold restoreApprovals
    rw [restore_go _ [] s hsnd (fun _ _ => rfl)]
    rw [hga]
    rw [List.find?_map]
    rw [show ((fun a : Approval => a.service == s) ∘ rowToApproval)
        = (fun r : ApprovalRow => r.service == s) from rfl]
    rw [dedupe_find? _ [] s (by simp)]
    cases hf : (((db.filter (fun r => !(decide (r.expiresAt ≤ now)))).filter
        (rowLive now)).insertionSort idGe).find? (fun r => r.service == s) with
    | some r =>
      simp only [Option.map_some']
      have hsort : List.Sorted idGe (((db.filter (fun r => !(decide (r.expiresAt ≤ now)))).filter
          (rowLive now)).insertionSort idGe) := List.sorted_insertionSort idGe _
      obtain ⟨hrmem, hrs, hrmax⟩ := find?_sorted_max _ s hsort r hf
      obtain ⟨hrdb, hrlive⟩ := (mem_rows_iff db now r).mp hrmem
      have hrc : r ∈ db.filter (fun x => x.service = s && rowLive now x) := by
        refine List.mem_filter.mpr ⟨hrdb, ?_⟩
        simp [hrs, hrlive]
      have hmax : ∀ x ∈ db.filter (fun x => x.service = s && rowLive now x), x.id ≤ r.id := by
        intro x hx
        obtain ⟨hxdb, hxp⟩ := List.mem_filter.mp hx
        simp only [Bool.and_eq_true] at hxp
        have hxs : x.service = s := of_decide_eq_true hxp.1
        exact hrmax x ((mem_rows_iff db now x).mpr ⟨hxdb, hxp.2⟩) hxs
      unfold newestLiveRow
      cases h2 : (db.filter (fun x => x.service = s && rowLive now x)).foldl pickNewer none with
      | none =>
        obtain ⟨-, hnil⟩ := pickfold_eq_none _ none h2
        rw [hnil] at hrc
        simp at hrc
      | some r2 =>
        obtain ⟨hmem2, -, hall2⟩ := pickfold_mem_max _ none r2 h2
        have hr2c : r2 ∈ db.filter (fun x => x.service = s && rowLive now x) :=
          hmem2.resolve_left (by simp)
        have hr2db : r2 ∈ db := (List.mem_filter.mp hr2c).1
        have hideq : r2.id = r.id :=
          Nat.le_antisymm (hmax r2 hr2c) (hall2 r hrc)
        have hrr : r2 = r := List.inj_on_of_nodup_map hids hr2db hrdb hideq
        rw [hrr]
        rfl
    | none =>
      have hnone := List.find?_eq_none.mp hf
      have hempty : db.filter (fun x => x.service = s && rowLive now x) = [] := by
        rw [List.filter_eq_nil_iff]
        intro x hx hxp
        simp only [Bool.and_eq_true] at hxp
        have hxs : x.service = s := of_decide_eq_true hxp.1
        exact (hnone x ((mem_rows_iff db now x).mpr ⟨hx, hxp.2⟩)) (by simpa using hxs)
      unfold newestLiveRow
      rw [hempty]
      simp [lookupKV]
  · have hre := restore_eq_append (getActiveApprovals now db).2 [] hsnd (fun _ _ => rfl)
    unfold restoreApprovals
    rw [hre, List.nil_append, List.map_map]
    exact hsnd

/-- C4, applied at a concrete table with competing rows for `gh`: the
reconstructed map holds the newest live row (id 3). -/
theorem c4_hydration_witness :
    lookupKV (restoreApprovals (getActiveApprovals 100 dbFixC4).2) "gh"
      = some ⟨"gh", 30, 300, "bob"⟩
    ∧ (newestLiveRow dbFixC4 100 "gh").map rowToApproval = some ⟨"gh", 30, 300, "bob"⟩ := by
  have h := (c4_hydration dbFixC4 100 (by decide)).2.1 "gh"
  refine ⟨?_, by decide⟩
  rw [h]
  decide
